import Mathlib

/-!
Verification development for the ioGame backend (Go, `backend/game.go`,
`backend/client.go`, `hub.go`).  The Go code is shallowly embedded:
float64 world coordinates become `ℚ`, Go `int` fields become `ℤ`,
wall-clock nanosecond times become `ℤ`, and the trigonometric values
`math.Cos θ` / `math.Sin θ` consumed by movement code are passed in as
explicit rational oracle inputs (any pair `(c, s)` with `c² + s² = 1`
is realisable by some direction `θ`).  Angles are only stored and
shifted, never compared, so the angle carrier is an abstract field `A`
with the constant `math.Pi` passed in as an explicit parameter `piA`:
instantiating `A := ℝ`, `piA := Real.pi` gives the exact semantics,
while `A := ℚ` with a rational stand-in for `π` lets witnesses
evaluate.  Randomness (`rand.Float64`, `rand.Intn`) is passed in as
explicit oracle inputs as well.
-/

set_option linter.unusedSectionVars false

namespace IoGame

/-! ## World constants (game.go, const block) -/

def gameMinX : ℚ := 0

def gameMinY : ℚ := 0

def gameMaxX : ℚ := 1200

def gameMaxY : ℚ := 800

/-- `weaponHitCooldown = 1000 * time.Millisecond`, in nanoseconds. -/
def weaponHitCooldownNs : ℤ := 1000000000

/-- `playerMasterRatio = 2` -/
def playerMasterRatioK : ℕ := 2

/-- `baseMonsterAmount = 10` -/
def baseMonsterAmount : ℕ := 10

/-- `maxMonsterAmount = 60` -/
def maxMonsterAmount : ℕ := 60

/-! ## Entity and geometry (game.go `Entity`, `CheckCollision`) -/

structure Entity where
  id : ℤ
  x : ℚ
  y : ℚ
  width : ℚ
  height : ℚ
deriving DecidableEq

/-- `Entity.CheckCollision`: axis-aligned overlap test, after shifting both
centers to top-left corners, exactly as in the source. -/
def Entity.checkCollision (e other : Entity) : Bool :=
  let x1 := e.x - e.width / 2
  let y1 := e.y - e.height / 2
  let x2 := other.x - other.width / 2
  let y2 := other.y - other.height / 2
  if x1 > x2 + other.width ∨ x1 + e.width < x2 ∨
     y1 > y2 + other.height ∨ y1 + e.height < y2 then false else true

/-- Spec §8 invariant 1: the entity's bounding box lies inside the arena
rectangle `[0,1200] × [0,800]`. -/
def insideArena (e : Entity) : Prop :=
  0 ≤ e.x - e.width / 2 ∧ e.x + e.width / 2 ≤ gameMaxX ∧
  0 ≤ e.y - e.height / 2 ∧ e.y + e.height / 2 ≤ gameMaxY

instance (e : Entity) : Decidable (insideArena e) := by
  unfold insideArena gameMaxX gameMaxY; infer_instance

/-! ## Health component (game.go `HealthComponent`) -/

structure HealthComponent where
  health : ℤ
  maxHealth : ℤ
  lastHitById : ℤ → Option ℤ

/-- `TakeDamage`: subtract, clamp at 0. -/
def takeDamage (damage : ℤ) (h : HealthComponent) : HealthComponent :=
  let h' := h.health - damage
  { h with health := if h' < 0 then 0 else h' }

/-- `Heal`: raise health, clamp at `maxHealth`, return the applied amount
(first component) exactly as the source returns it. -/
def healBy (amount : ℤ) (h : HealthComponent) : ℤ × HealthComponent :=
  let oldHealth := h.health
  let h' := h.health + amount
  if h' > h.maxHealth then
    (h.maxHealth - oldHealth, { h with health := h.maxHealth })
  else
    (amount, { h with health := h' })

/-- `IsDead`: `health <= 0`. -/
def isDeadH (h : HealthComponent) : Bool := h.health ≤ 0

/-- `CheckHitCooldown`: returns true and records `now` iff no record exists
for `sourceId` or at least `weaponHitCooldownNs` elapsed. -/
def checkHitCooldown (now : ℤ) (sourceId : ℤ) (h : HealthComponent) :
    Bool × HealthComponent :=
  let record : HealthComponent :=
    { h with lastHitById := fun k => if k = sourceId then some now else h.lastHitById k }
  match h.lastHitById sourceId with
  | none => (true, record)
  | some t => if now - t ≥ weaponHitCooldownNs then (true, record) else (false, h)

/-! ## Game objects -/

/-- Angles (radians) live in an abstract field `A` with a distinguished
constant standing for `math.Pi`; instantiating `A := ℝ` with `Real.pi`
gives the exact semantics, instantiating `A := ℚ` keeps everything
evaluable on concrete inputs. -/
structure Weapon (A : Type) extends Entity where
  ownerID : ℤ
  rotationAngle : A

structure Player (A : Type) extends Entity, HealthComponent where
  speed : ℚ
  direction : A
  experience : ℤ
  level : ℤ
  damage : ℤ
  weaponRotationAngle : A
  weaponRotationSpeed : ℚ
  weapons : List (Weapon A)
  hasClient : Bool

structure Monster (A : Type) extends Entity, HealthComponent where
  speed : ℚ
  direction : A
  damage : ℤ
  dropRate : ℚ

structure HealingPotion extends Entity where
  amount : ℤ

structure Experience extends Entity where
  amount : ℤ

/-! ## Movement (game.go `Player.Move`, `Monster.Move`)

`c` and `s` stand for `math.Cos p.Direction` and `math.Sin p.Direction`.
For the monster, `r` is the `rand.Float64()` drawn for the occasional
direction change and `rdir` the `rand.Float64()` used for the new
direction when `r < 0.01`. -/

variable {A : Type} [Field A]

def playerMove (dt c s : ℚ) (p : Player A) : Player A :=
  let newX := p.x + c * p.speed * dt
  let newY := p.y + s * p.speed * dt
  let halfWidth := p.width / 2
  let halfHeight := p.height / 2
  let newX :=
    if newX - halfWidth < gameMinX then gameMinX + halfWidth
    else if newX + halfWidth > gameMaxX then gameMaxX - halfWidth
    else newX
  let newY :=
    if newY - halfHeight < gameMinY then gameMinY + halfHeight
    else if newY + halfHeight > gameMaxY then gameMaxY - halfHeight
    else newY
  { p with x := newX, y := newY }

def monsterMove (piA : A) (dt c s r rdir : ℚ) (m : Monster A) : Monster A :=
  let newX := m.x + c * m.speed * dt
  let newY := m.y + s * m.speed * dt
  let halfWidth := m.width / 2
  let halfHeight := m.height / 2
  let xres : ℚ × A :=
    if newX - halfWidth < gameMinX then (gameMinX + halfWidth, piA - m.direction)
    else if newX + halfWidth > gameMaxX then (gameMaxX - halfWidth, piA - m.direction)
    else (newX, m.direction)
  let yres : ℚ × A :=
    if newY - halfHeight < gameMinY then (gameMinY + halfHeight, -xres.2)
    else if newY + halfHeight > gameMaxY then (gameMaxY - halfHeight, -xres.2)
    else (newY, xres.2)
  let dir' : A := if r < 1/100 then (rdir : ℚ) * (2 * piA) else yres.2
  { m with x := xres.1, y := yres.1, direction := dir' }

/-! ## Notifications

One value per `Client.send` channel post; the first field is the id of the
player whose client receives it. -/

inductive Notif
  | playerHit (toClientOf source target damage remaining : ℤ)
  | monsterHit (toClientOf monsterID damage monsterHealth : ℤ) (killed : Bool)
  | playerDeath (toClientOf : ℤ)
  | potionCollected (toClientOf potionID amount healedAmount newHealth : ℤ)
  | experienceCollected (toClientOf experienceID amount totalExperience : ℤ)
  | levelUp (toClientOf level : ℤ)
deriving DecidableEq

/-- Recipient of a notification (which connection's egress queue it is
posted to). -/
def Notif.recipient : Notif → ℤ
  | .playerHit t _ _ _ _ => t
  | .monsterHit t _ _ _ _ => t
  | .playerDeath t => t
  | .potionCollected t _ _ _ _ => t
  | .experienceCollected t _ _ _ => t
  | .levelUp t _ => t

/-! ## Item collection (game.go `HealingPotion.OnCollect`,
`Experience.OnCollect`) -/

/-- `HealingPotion.OnCollect`: no-op when the collector has no client;
otherwise heal and post a `potionCollected` notification. -/
def onCollectPotion (pot : HealingPotion) (p : Player A) : Player A × List Notif :=
  if p.hasClient = false then (p, []) else
  let res := healBy pot.amount p.toHealthComponent
  let p' : Player A := { p with health := res.2.health }
  (p', [.potionCollected p.id pot.id pot.amount res.1 p'.health])

/-- `Experience.OnCollect`: no-op when the collector has no client;
otherwise add the amount, level up once if the threshold is reached
(posting `levelUp` first), then post `experienceCollected`. -/
def onCollectExp (e : Experience) (p : Player A) : Player A × List Notif :=
  if p.hasClient = false then (p, []) else
  let p1 : Player A := { p with experience := p.experience + e.amount }
  if p1.experience ≥ p1.level * 10 then
    let p2 : Player A := { p1 with
      level := p1.level + 1
      damage := p1.damage + 1
      maxHealth := p1.maxHealth + 10
      health := p1.maxHealth + 10
      experience := 0 }
    (p2, [.levelUp p.id p2.level,
          .experienceCollected p.id e.id e.amount p2.experience])
  else
    (p1, [.experienceCollected p.id e.id e.amount p1.experience])

/-- Spec §4.2 claim C1: the player's combat stats are the linear function
of the level fixed by the defaults and the level-up rule. -/
def statInvariant (p : Player A) : Prop :=
  p.damage = 10 + (p.level - 1) ∧ p.maxHealth = 100 + 10 * (p.level - 1)

instance (p : Player A) : Decidable (statInvariant p) := by
  unfold statInvariant; infer_instance

/-! ## World state (game.go `Game`) -/

structure GameState (A : Type) where
  players : List (Player A)
  monsters : List (Monster A)
  healingPotions : List HealingPotion
  experiences : List Experience
  usedIDs : String → ℤ → Bool

/-- `Game.releaseID`: delete the id from the per-class used set. -/
def releaseID (cls : String) (idv : ℤ) (u : String → ℤ → Bool) : String → ℤ → Bool :=
  fun c i => if c = cls ∧ i = idv then false else u c i

/-- `Game.generateID` marks the freshly generated id used; the id itself is
an oracle input here. -/
def markUsed (cls : String) (idv : ℤ) (u : String → ℤ → Bool) : String → ℤ → Bool :=
  fun c i => if c = cls ∧ i = idv then true else u c i

/-- Replace the element at index `i` (out-of-range: unchanged). -/
def modifyAt (l : List α) (i : ℕ) (f : α → α) : List α :=
  match l, i with
  | [], _ => []
  | a :: as, 0 => f a :: as
  | a :: as, n + 1 => a :: modifyAt as n f

def dfltEntity : Entity := ⟨0, 0, 0, 0, 0⟩

def dfltHealth : HealthComponent := ⟨0, 0, fun _ => none⟩

def dfltWeapon : Weapon A :=
  { toEntity := dfltEntity, ownerID := 0, rotationAngle := 0 }

def dfltPlayer : Player A :=
  { toEntity := dfltEntity, toHealthComponent := dfltHealth, speed := 0,
    direction := 0, experience := 0, level := 0, damage := 0,
    weaponRotationAngle := 0, weaponRotationSpeed := 0, weapons := [],
    hasClient := false }

def dfltMonster : Monster A :=
  { toEntity := dfltEntity, toHealthComponent := dfltHealth, speed := 0,
    direction := 0, damage := 0, dropRate := 0 }

/-! ## Collision subsystem (game.go `CollisionSystem`)

The Go loops mutate players/monsters through pointers; here the state is
threaded through index-based folds over the (unchanged) index ranges. -/

/-- Inner body of `checkWeaponCollisions`: weapon `k` of player `i`
against every other player (in order). -/
def weaponVsPlayers (now : ℤ) (i k : ℕ) (acc : GameState A × List Notif) :
    GameState A × List Notif :=
  (List.range acc.1.players.length).foldl (fun acc j =>
    let st := acc.1
    let p := st.players.getD i dfltPlayer
    let w := p.weapons.getD k dfltWeapon
    let other := st.players.getD j dfltPlayer
    if other.id = w.ownerID then acc
    else if w.toEntity.checkCollision other.toEntity then
      let cr := checkHitCooldown now w.id other.toHealthComponent
      if cr.1 then
        let other' : Player A := { other with toHealthComponent := takeDamage p.damage cr.2 }
        let msgs :=
          (if p.hasClient then [Notif.playerHit p.id w.ownerID other.id p.damage other'.health] else []) ++
          (if other.hasClient then [Notif.playerHit other.id w.ownerID other.id p.damage other'.health] else [])
        ({ st with players := modifyAt st.players j (fun _ => other') }, acc.2 ++ msgs)
      else acc
    else acc) acc

/-- Inner body of `checkWeaponCollisions`: weapon `k` of player `i` against
every monster (in order). -/
def weaponVsMonsters (now : ℤ) (i k : ℕ) (acc : GameState A × List Notif) :
    GameState A × List Notif :=
  (List.range acc.1.monsters.length).foldl (fun acc q =>
    let st := acc.1
    let p := st.players.getD i dfltPlayer
    let w := p.weapons.getD k dfltWeapon
    let m := st.monsters.getD q dfltMonster
    if m.health > 0 ∧ w.toEntity.checkCollision m.toEntity then
      let cm := checkHitCooldown now w.id m.toHealthComponent
      if cm.1 then
        let m' : Monster A := { m with toHealthComponent := takeDamage p.damage cm.2 }
        let msgs :=
          if p.hasClient then
            [Notif.monsterHit p.id m.id p.damage m'.health (isDeadH m'.toHealthComponent)]
          else []
        ({ st with monsters := modifyAt st.monsters q (fun _ => m') }, acc.2 ++ msgs)
      else acc
    else acc) acc

/-- `checkWeaponCollisions` (both the player and the monster inner loops). -/
def csWeapons (now : ℤ) (g : GameState A) : GameState A × List Notif :=
  (List.range g.players.length).foldl (fun acc i =>
    (List.range ((acc.1.players.getD i dfltPlayer).weapons.length)).foldl (fun acc k =>
      weaponVsMonsters now i k (weaponVsPlayers now i k acc)) acc) (g, [])

/-- `checkMonsterPlayerCollisions`. -/
def csMonsterPlayer (now : ℤ) (g : GameState A) : GameState A × List Notif :=
  (List.range g.monsters.length).foldl (fun acc q =>
    (List.range acc.1.players.length).foldl (fun acc j =>
      let st := acc.1
      let m := st.monsters.getD q dfltMonster
      let p := st.players.getD j dfltPlayer
      if m.health > 0 ∧ m.toEntity.checkCollision p.toEntity then
        let cp := checkHitCooldown now m.id p.toHealthComponent
        if cp.1 then
          let p' : Player A := { p with toHealthComponent := takeDamage m.damage cp.2 }
          let msgs :=
            if p.hasClient then [Notif.playerHit p.id m.id p.id m.damage p'.health] else []
          ({ st with players := modifyAt st.players j (fun _ => p') }, acc.2 ++ msgs)
        else acc
      else acc) acc) (g, [])

/-- Per-potion body of `checkPlayerPotionCollisions`: the first player in
iteration order whose box overlaps the potion collects it; the second
component is `none` when the potion was collected (dropped from the list)
and `some pot` when it is kept. -/
def processPotion (st : GameState A) (pot : HealingPotion) :
    (GameState A × List Notif) × Option HealingPotion :=
  match st.players.findIdx? (fun p => pot.toEntity.checkCollision p.toEntity) with
  | some j =>
      let p := st.players.getD j dfltPlayer
      let res := onCollectPotion pot p
      (({ st with players := modifyAt st.players j (fun _ => res.1),
                  usedIDs := releaseID ("potion") pot.id st.usedIDs }, res.2), none)
  | none => ((st, []), some pot)

/-- Loop body of `checkPlayerPotionCollisions` (accumulates the updated
state, the posted notifications, and the kept potions). -/
def potionStep (acc : (GameState A × List Notif) × List HealingPotion)
    (pot : HealingPotion) : (GameState A × List Notif) × List HealingPotion :=
  let step := processPotion acc.1.1 pot
  ((step.1.1, acc.1.2 ++ step.1.2),
   acc.2 ++ (match step.2 with | some k => [k] | none => []))

/-- `checkPlayerPotionCollisions`. -/
def csPotions (g : GameState A) : GameState A × List Notif :=
  let r := g.healingPotions.foldl potionStep ((g, []), [])
  ({ r.1.1 with healingPotions := r.2 }, r.1.2)

/-- Per-orb body of `checkPlayerExperienceCollisions`. -/
def processExpOrb (st : GameState A) (e : Experience) :
    (GameState A × List Notif) × Option Experience :=
  match st.players.findIdx? (fun p => e.toEntity.checkCollision p.toEntity) with
  | some j =>
      let p := st.players.getD j dfltPlayer
      let res := onCollectExp e p
      (({ st with players := modifyAt st.players j (fun _ => res.1),
                  usedIDs := releaseID ("experience") e.id st.usedIDs }, res.2), none)
  | none => ((st, []), some e)

/-- Loop body of `checkPlayerExperienceCollisions`. -/
def expOrbStep (acc : (GameState A × List Notif) × List Experience)
    (e : Experience) : (GameState A × List Notif) × List Experience :=
  let step := processExpOrb acc.1.1 e
  ((step.1.1, acc.1.2 ++ step.1.2),
   acc.2 ++ (match step.2 with | some k => [k] | none => []))

/-- `checkPlayerExperienceCollisions`. -/
def csExperiences (g : GameState A) : GameState A × List Notif :=
  let r := g.experiences.foldl expOrbStep ((g, []), [])
  ({ r.1.1 with experiences := r.2 }, r.1.2)

/-- `CollisionSystem.Update`: the four phases in their fixed order. -/
def csAll (now : ℤ) (g : GameState A) : GameState A × List Notif :=
  let r1 := csWeapons now g
  let r2 := csMonsterPlayer now r1.1
  let r3 := csPotions r2.1
  let r4 := csExperiences r3.1
  (r4.1, r1.2 ++ r2.2 ++ r3.2 ++ r4.2)

/-! ## Player subsystem (game.go `PlayerSystem`) -/

/-- Trigonometric oracle for one player's per-tick update: cos/sin of its
direction, and cos/sin of each weapon's orbit angle
`weaponRotationAngle' + i·2π/k`. -/
structure PlayerTrig where
  moveC : ℚ
  moveS : ℚ
  weaponTrig : ℕ → ℚ × ℚ

/-- Body of the per-player loop of `PlayerSystem.Update`: move with arena
clamp, add `Experience/100` (Go integer division) to damage and max
health, advance the weapon rotation phase, and place every weapon at
orbit radius 30 around the player. -/
def playerUpdateOne (dt : ℚ) (tr : PlayerTrig) (p : Player A) : Player A :=
  let p := playerMove dt tr.moveC tr.moveS p
  let p : Player A := { p with
    damage := p.damage + Int.tdiv p.experience 100
    maxHealth := p.maxHealth + Int.tdiv p.experience 100 }
  let p : Player A := { p with
    weaponRotationAngle := p.weaponRotationAngle + ((p.weaponRotationSpeed * dt : ℚ) : A) }
  { p with weapons := p.weapons.mapIdx (fun i w =>
      let cs := tr.weaponTrig i
      { w with x := p.x + cs.1 * 30, y := p.y + cs.2 * 30 }) }

/-- `Game.spawnExperience`: orb of size 8×8 at the death position jittered
by `(rand−0.5)·30` on each axis; `rx, ry` are the two `rand.Float64()`
draws and `idv` the generated id. -/
def spawnExperienceP (idv : ℤ) (rx ry : ℚ) (x y : ℚ) (amount : ℤ)
    (g : GameState A) : GameState A :=
  let offsetX := (rx - 1/2) * 30
  let offsetY := (ry - 1/2) * 30
  { g with
    usedIDs := markUsed ("experience") idv g.usedIDs
    experiences := g.experiences ++
      [{ id := idv, x := x + offsetX, y := y + offsetY, width := 8, height := 8,
         amount := amount }] }

/-- `Game.removePlayer`: release the id, then swap the first player with a
matching id with the last element and truncate. -/
def removeFirstById (pid : ℤ) (l : List (Player A)) : List (Player A) :=
  match l.findIdx? (fun p => p.id = pid) with
  | none => l
  | some i => (l.set i (l.getLastD dfltPlayer)).dropLast

/-- Random draws consumed when one dead player is cleaned up. -/
structure DeathRoll where
  orbExtra : ℤ
  orbRoll : ℕ → ℚ × ℚ
  orbId : ℕ → ℤ

/-- One iteration of the removal loop of `PlayerSystem.removeDeadPlayers`
(`n` indexes into the list of players collected as dead). -/
def removeDeadStep (deads : List (Player A)) (rolls : ℕ → DeathRoll)
    (acc : GameState A × List Notif) (n : ℕ) : GameState A × List Notif :=
  let p := deads.getD n dfltPlayer
  let roll := rolls n
  let msgs := if p.hasClient then [Notif.playerDeath p.id] else []
  let g1 := acc.1
  let g2 :=
    if p.experience > 0 then
      let expAmount := Int.tdiv p.experience 2
      let numExpOrbs : ℤ := 4 + roll.orbExtra
      (List.range numExpOrbs.toNat).foldl (fun gg i =>
        spawnExperienceP (roll.orbId i) (roll.orbRoll i).1 (roll.orbRoll i).2
          p.x p.y (Int.tdiv expAmount numExpOrbs) gg) g1
    else g1
  ({ g2 with
      usedIDs := releaseID ("player") p.id g2.usedIDs
      players := removeFirstById p.id g2.players }, acc.2 ++ msgs)

/-- `PlayerSystem.removeDeadPlayers`: collect the dead players, then for
each one post `playerDeath` (when a client is attached), spawn 4–7
experience orbs carrying `(experience/2)/n` each when experience is
positive, and remove the player (releasing its id). -/
def removeDeadPlayers (rolls : ℕ → DeathRoll) (g : GameState A) :
    GameState A × List Notif :=
  let deads := g.players.filter (fun p => isDeadH p.toHealthComponent)
  (List.range deads.length).foldl (removeDeadStep deads rolls) (g, [])

/-- `PlayerSystem.Update`: per-player update, then dead-player cleanup. -/
def playerSystemUpdate (dt : ℚ) (trs : ℕ → PlayerTrig) (rolls : ℕ → DeathRoll)
    (g : GameState A) : GameState A × List Notif :=
  let g1 : GameState A :=
    { g with players := g.players.mapIdx (fun i p => playerUpdateOne dt (trs i) p) }
  removeDeadPlayers rolls g1

/-! ## Monster subsystem (game.go `MonsterSystem`) -/

/-- Random draws consumed by `Game.spawnMonster`. -/
structure SpawnRoll where
  idv : ℤ
  rx : ℚ
  ry : ℚ
  rdir : ℚ

/-- The monster built by `Game.spawnMonster`. -/
def spawnMonsterP (piA : A) (roll : SpawnRoll) : Monster A :=
  { id := roll.idv
    x := gameMinX + 50 + roll.rx * (gameMaxX - gameMinX - 100)
    y := gameMinY + 50 + roll.ry * (gameMaxY - gameMinY - 100)
    width := 20
    height := 20
    health := 60
    maxHealth := 60
    lastHitById := fun _ => none
    speed := 30
    direction := (roll.rdir : ℚ) * (2 * piA)
    damage := 20
    dropRate := 3/4 }

def spawnMonsterG (piA : A) (roll : SpawnRoll) (g : GameState A) : GameState A :=
  { g with
    usedIDs := markUsed ("monster") roll.idv g.usedIDs
    monsters := g.monsters ++ [spawnMonsterP piA roll] }

/-- The spawn loop at the head of `MonsterSystem.Update`:
`for len(Monsters) < len(Players)*2+10 && len(Monsters) < 60 { spawnMonster }`. -/
def spawnLoop (piA : A) (rolls : ℕ → SpawnRoll) (k : ℕ) (g : GameState A) :
    GameState A :=
  if g.monsters.length < g.players.length * playerMasterRatioK + baseMonsterAmount ∧
     g.monsters.length < maxMonsterAmount then
    spawnLoop piA rolls (k + 1) (spawnMonsterG piA (rolls k) g)
  else g
termination_by maxMonsterAmount - g.monsters.length
decreasing_by
  simp only [spawnMonsterG, List.length_append, List.length_cons, List.length_nil]
  omega

/-- `Game.spawnHealingPotion`: potion of size 12×12, heal 25. -/
def spawnHealingPotionG (idv : ℤ) (x y : ℚ) (g : GameState A) : GameState A :=
  { g with
    usedIDs := markUsed ("potion") idv g.usedIDs
    healingPotions := g.healingPotions ++
      [{ id := idv, x := x, y := y, width := 12, height := 12, amount := 25 }] }

/-- Random draws consumed when one dead monster is cleaned up. -/
structure MonsterDeathRoll where
  potionRoll : ℚ
  potionId : ℤ
  expExtra : ℤ
  orbExtra : ℤ
  orbId : ℕ → ℤ
  orbRoll : ℕ → ℚ × ℚ

/-- Loop body of `removeDeadMonsters` (`ms` is the monster list being
iterated, `q` the current index). -/
def deadMonsterStep (ms : List (Monster A)) (rolls : ℕ → MonsterDeathRoll)
    (acc : GameState A × List (Monster A)) (q : ℕ) :
    GameState A × List (Monster A) :=
  let m := ms.getD q dfltMonster
  if isDeadH m.toHealthComponent then
    let roll := rolls q
    let g1 :=
      if roll.potionRoll < m.dropRate then
        spawnHealingPotionG roll.potionId m.x m.y acc.1
      else acc.1
    let expAmount : ℤ := 10 + roll.expExtra
    let numExpOrbs : ℤ := 3 + roll.orbExtra
    let g2 := (List.range numExpOrbs.toNat).foldl (fun gg i =>
      spawnExperienceP (roll.orbId i) (roll.orbRoll i).1 (roll.orbRoll i).2
        m.x m.y (Int.tdiv expAmount numExpOrbs) gg) g1
    ({ g2 with usedIDs := releaseID ("monster") m.id g2.usedIDs }, acc.2)
  else (acc.1, acc.2 ++ [m])

/-- `MonsterSystem.removeDeadMonsters`: rebuild the monster list keeping
the live ones; each dead monster drops a potion with probability
`dropRate`, spawns 3–5 experience orbs, and has its id released. -/
def removeDeadMonsters (rolls : ℕ → MonsterDeathRoll) (g : GameState A) :
    GameState A :=
  let r := (List.range g.monsters.length).foldl (deadMonsterStep g.monsters rolls) (g, [])
  { r.1 with monsters := r.2 }

/-- Per-monster random draws for `Monster.Move`. -/
structure MoveRoll where
  c : ℚ
  s : ℚ
  r : ℚ
  rdir : ℚ

/-- `MonsterSystem.Update`: spawn up to the population target, move every
monster, then clean up the dead ones. -/
def monsterSystemUpdate (piA : A) (dt : ℚ) (spawnRolls : ℕ → SpawnRoll)
    (moveRolls : ℕ → MoveRoll) (deathRolls : ℕ → MonsterDeathRoll)
    (g : GameState A) : GameState A :=
  let g1 := spawnLoop piA spawnRolls 0 g
  let g2 : GameState A := { g1 with monsters := g1.monsters.mapIdx (fun q m =>
    monsterMove piA dt (moveRolls q).c (moveRolls q).s (moveRolls q).r
      (moveRolls q).rdir m) }
  removeDeadMonsters deathRolls g2

/-! ## Simulation driver (game.go `Game.run`) -/

/-- All oracle inputs consumed by one tick. -/
structure TickOracle where
  now : ℤ
  trs : ℕ → PlayerTrig
  pDeathRolls : ℕ → DeathRoll
  spawnRolls : ℕ → SpawnRoll
  moveRolls : ℕ → MoveRoll
  mDeathRolls : ℕ → MonsterDeathRoll

/-- One tick of `Game.run`: player system, monster system, collision
system, in that order; the snapshot broadcast at the end of the tick
serialises exactly the resulting entity lists.  The second component
collects every notification posted during the tick, in posting order. -/
def tick (piA : A) (dt : ℚ) (o : TickOracle) (g : GameState A) :
    GameState A × List Notif :=
  let r1 := playerSystemUpdate dt o.trs o.pDeathRolls g
  let g2 := monsterSystemUpdate piA dt o.spawnRolls o.moveRolls o.mDeathRolls r1.1
  let r3 := csAll o.now g2
  (r3.1, r1.2 ++ r3.2)

/-- Lock/post/unlock events of one iteration of `Game.run`: the mutex is
taken, the subsystems run (posting their notifications into per-client
egress channels), the mutex is released, and the snapshot is handed to
the Hub. -/
inductive Ev
  | lock
  | post (recipient : ℤ)
  | unlock
  | broadcastSnapshot
deriving DecidableEq

def tickTrace (piA : A) (dt : ℚ) (o : TickOracle) (g : GameState A) : List Ev :=
  [Ev.lock] ++ ((tick piA dt o g).2.map (fun n => Ev.post n.recipient)) ++
  [Ev.unlock, Ev.broadcastSnapshot]

def isPost : Ev → Bool
  | .post _ => true
  | _ => false

/-- Whether some egress-queue post happens between taking and releasing
the world mutex. -/
def postedWhileLocked (tr : List Ev) : Bool :=
  ((tr.dropWhile (fun e => e ≠ Ev.lock)).takeWhile (fun e => e ≠ Ev.unlock)).any isPost

/-! ## Hub (hub.go `Hub.run`, broadcast case) -/

def egressCapacity : ℕ := 256

structure HubConn (M : Type) where
  cid : ℤ
  queue : List M

/-- The broadcast arm of `Hub.run`'s select: a non-blocking send to every
registered connection; a connection whose egress queue is full is closed
and removed from the registry instead. -/
def hubBroadcast {M : Type} (msg : M) (conns : List (HubConn M)) : List (HubConn M) :=
  conns.filterMap (fun c =>
    if c.queue.length < egressCapacity then some { c with queue := c.queue ++ [msg] }
    else none)

/-! ## Connection reader (client.go `Client.readPump`) -/

inductive JVal
  | jnull
  | jbool (b : Bool)
  | jnum (q : ℚ)
  | jstr (s : String)
  | jarr (elems : List JVal)
  | jobj (fields : List (String × JVal))

def jlookup (fields : List (String × JVal)) (k : String) : Option JVal :=
  (fields.find? (fun kv => kv.1 = k)).map (fun kv => kv.2)

structure ClientSt where
  player : Option ℤ
deriving DecidableEq

inductive ReadEffect
  | joined (pid : ℤ)
  | setDirection (radians : ℚ)
  | logBadJson
  | logUnknownType (t : String)
deriving DecidableEq

/-- Outcome of handling one inbound frame: either the reader keeps
running (with the client state and the effects performed), or the
goroutine panics, aborting the process. -/
inductive ReadOutcome
  | ok (c : ClientSt) (effects : List ReadEffect)
  | panicked
deriving DecidableEq

/-- One iteration of the `readPump` message loop, after the frame has been
read.  `msg` is `none` when `json.Unmarshal` into `map[string]any` fails
(malformed JSON); `newPid` is the id a fresh player would get.  Mirrors
the `switch` on `data["type"]`, including the unchecked
`data["direction"].(float64)` type assertion. -/
def processInbound (c : ClientSt) (newPid : ℤ) (msg : Option JVal) : ReadOutcome :=
  match msg with
  | none => .ok c [.logBadJson]
  | some v =>
    match v with
    | .jobj fields =>
      match jlookup fields ("type") with
      | some (.jstr t) =>
        if t = "join" then
          match c.player with
          | none => .ok { player := some newPid } [.joined newPid]
          | some _ => .ok c []
        else if t = "direction" then
          match c.player with
          | some _ =>
            match jlookup fields ("direction") with
            | none => .ok c []
            | some .jnull => .ok c []
            | some (.jnum q) => .ok c [.setDirection q]
            | some _ => .panicked
          | none => .ok c []
        else .ok c [.logUnknownType t]
      | _ => .ok c []
    | _ => .ok c [.logBadJson]

/-- `Game.addNewPlayer` defaults (without the two weapons, which receive
their own generated ids; `wid1, wid2` are those ids). -/
def newPlayerP (pid wid1 wid2 : ℤ) : Player A :=
  let base : Player A :=
    { id := pid, x := 100, y := 100, width := 10, height := 20,
      health := 100, maxHealth := 100, lastHitById := fun _ => none,
      experience := 0, level := 1, speed := 100, direction := 0,
      damage := 10, weaponRotationAngle := 0, weaponRotationSpeed := 1,
      weapons := [], hasClient := true }
  { base with weapons :=
      [{ id := wid1, x := base.x, y := base.y, width := 10, height := 20,
         ownerID := pid, rotationAngle := 0 },
       { id := wid2, x := base.x, y := base.y, width := 10, height := 20,
         ownerID := pid, rotationAngle := 0 }] }

/-! ## Witness and counterexample inputs -/

/-- Invariant carried through the collision phases: the id sequences of
the player and monster lists are fixed, healths and max healths are
non-negative, and potion heal amounts are non-negative. -/
def stInv (P0 M0 : List ℤ) (g : GameState A) : Prop :=
  g.players.map (fun p => p.id) = P0 ∧
  g.monsters.map (fun m => m.id) = M0 ∧
  (∀ p ∈ g.players, 0 ≤ p.health ∧ 0 ≤ p.maxHealth) ∧
  (∀ m ∈ g.monsters, 0 ≤ m.health) ∧
  (∀ pot ∈ g.healingPotions, 0 ≤ pot.amount)

def cooldownWitnessH : HealthComponent :=
  { health := 100, maxHealth := 100, lastHitById := fun _ => none }

def bounceMonster : Monster ℚ :=
  { id := 9, x := 10, y := 400, width := 20, height := 20, health := 60,
    maxHealth := 60, lastHitById := fun _ => none, speed := 30,
    direction := 0, damage := 20, dropRate := 3/4 }

def wallPlayer : Player ℚ :=
  { newPlayerP 1 100 101 with x := 5, y := 400 }

/-- A state reachable at level 11 (experience may then sit anywhere below
110): the stat relation holds, yet one ordinary per-tick update adds
`102/100 = 1` to Damage and MaxHealth. -/
def statCexPlayer : Player ℚ :=
  { newPlayerP 2 200 201 with
    level := 11, damage := 20, maxHealth := 200, health := 150, experience := 102 }

def statCexTrig : PlayerTrig := { moveC := 1, moveS := 0, weaponTrig := fun _ => (1, 0) }

def statWitnessPlayer : Player ℚ :=
  { newPlayerP 4 400 401 with level := 3, damage := 12, maxHealth := 120, experience := 25 }

def arenaWitnessPlayer : Player ℚ := { newPlayerP 6 600 601 with x := 2, y := 799 }

def arenaWitnessMonster : Monster ℚ := { bounceMonster with x := 1195, y := 3 }

def arenaCexPlayer : Player ℚ := { newPlayerP 1 100 101 with x := 5, y := 400 }

/-- Realisable weapon-orbit trigonometry at rotation phase `π`: the two
weapon angles are `π` and `π + π`, whose (cos, sin) pairs are `(−1, 0)`
and `(1, 0)`. -/
def arenaCexTrig : PlayerTrig :=
  { moveC := 1, moveS := 0, weaponTrig := fun i => if i = 0 then (-1, 0) else (1, 0) }

def potionWitnessState : GameState ℚ :=
  { players := [newPlayerP 1 100 101]
    monsters := []
    healingPotions := []
    experiences := []
    usedIDs := fun c i => c = "potion" ∧ i = 50 }

def witnessPotion : HealingPotion :=
  { id := 50, x := 100, y := 100, width := 12, height := 12, amount := 25 }

def expWitnessPlayer : Player ℚ := { newPlayerP 1 100 101 with experience := 5 }

def expWitnessState : GameState ℚ :=
  { players := [expWitnessPlayer]
    monsters := []
    healingPotions := []
    experiences := []
    usedIDs := fun c i => c = "experience" ∧ i = 60 }

def witnessOrb : Experience :=
  { id := 60, x := 100, y := 100, width := 8, height := 8, amount := 5 }

def spawnWitnessRoll : SpawnRoll := { idv := 70, rx := 1/2, ry := 1/2, rdir := 1/2 }

def spawnWitnessState : GameState ℚ :=
  { players := [newPlayerP 1 100 101], monsters := [], healingPotions := [],
    experiences := [], usedIDs := fun _ _ => false }

def lockCexPlayer : Player ℚ := { newPlayerP 3 300 301 with health := 0 }

def trivTrig : PlayerTrig := ⟨1, 0, fun _ => (1, 0)⟩

def trivDeathRoll : DeathRoll := ⟨0, fun _ => (1/2, 1/2), fun _ => 0⟩

def trivSpawnRoll : SpawnRoll := ⟨0, 1/2, 1/2, 1/2⟩

def trivMoveRoll : MoveRoll := ⟨1, 0, 1/2, 1/2⟩

def trivMonsterDeathRoll : MonsterDeathRoll := ⟨1/2, 0, 0, 0, fun _ => 0, fun _ => (1/2, 1/2)⟩

def lockCexOracle : TickOracle :=
  { now := 0, trs := fun _ => trivTrig, pDeathRolls := fun _ => trivDeathRoll,
    spawnRolls := fun _ => trivSpawnRoll, moveRolls := fun _ => trivMoveRoll,
    mDeathRolls := fun _ => trivMonsterDeathRoll }

def lockCexState : GameState ℚ :=
  { players := [lockCexPlayer], monsters := [], healingPotions := [],
    experiences := [], usedIDs := fun _ _ => false }

def lockCexG1 : GameState ℚ :=
  { lockCexState with players := lockCexState.players.mapIdx (fun i p => playerUpdateOne (1/60 : ℚ) (lockCexOracle.trs i) p) }

def csWitnessState : GameState ℚ :=
  { players := [{ newPlayerP 1 100 101 with health := 0 }]
    monsters := [bounceMonster]
    healingPotions := [witnessPotion]
    experiences := []
    usedIDs := fun _ _ => false }

/-! # Theorems -/

/-! ## List helpers -/

lemma foldl_inv {β γ : Type _} (P : β → Prop) (f : β → γ → β) (l : List γ) (b : β)
    (hb : P b) (hf : ∀ acc x, x ∈ l → P acc → P (f acc x)) : P (l.foldl f b) := by
  induction l generalizing b with
  | nil => exact hb
  | cons x xs ih =>
    exact ih (f b x) (hf b x (List.mem_cons_self x xs) hb)
      (fun acc y hy hp => hf acc y (List.mem_cons_of_mem x hy) hp)

lemma modifyAt_nil (i : ℕ) (f : α → α) : modifyAt ([] : List α) i f = [] := by
  cases i <;> rfl

lemma modifyAt_cons_zero (a : α) (as : List α) (f : α → α) :
    modifyAt (a :: as) 0 f = f a :: as := rfl

lemma modifyAt_cons_succ (a : α) (as : List α) (n : ℕ) (f : α → α) :
    modifyAt (a :: as) (n + 1) f = a :: modifyAt as n f := rfl

lemma map_modifyAt_const {β : Type _} (l : List α) (i : ℕ) (v : α) (g : α → β) (d : α)
    (h : i < l.length → g v = g (l.getD i d)) :
    (modifyAt l i (fun _ => v)).map g = l.map g := by
  induction l generalizing i with
  | nil => rw [modifyAt_nil]
  | cons a as ih =>
    cases i with
    | zero =>
      rw [modifyAt_cons_zero, List.map_cons, List.map_cons]
      rw [h (by simp), List.getD_cons_zero]
    | succ n =>
      rw [modifyAt_cons_succ, List.map_cons, List.map_cons]
      rw [ih n ?_]
      intro hn
      have := h (by simpa using Nat.succ_lt_succ hn)
      rwa [List.getD_cons_succ] at this

lemma mem_modifyAt_const {l : List α} {i : ℕ} {v x : α}
    (hx : x ∈ modifyAt l i (fun _ => v)) : x ∈ l ∨ x = v := by
  induction l generalizing i with
  | nil => rw [modifyAt_nil] at hx; simp at hx
  | cons a as ih =>
    cases i with
    | zero =>
      rw [modifyAt_cons_zero] at hx
      rcases List.mem_cons.mp hx with h | h
      · exact Or.inr h
      · exact Or.inl (List.mem_cons_of_mem a h)
    | succ n =>
      rw [modifyAt_cons_succ] at hx
      rcases List.mem_cons.mp hx with h | h
      · exact Or.inl (h ▸ List.mem_cons_self a as)
      · rcases ih h with h2 | h2
        · exact Or.inl (List.mem_cons_of_mem a h2)
        · exact Or.inr h2

lemma getD_mem {l : List α} {j : ℕ} {d : α} (h : j < l.length) : l.getD j d ∈ l := by
  rw [List.getD_eq_getElem?_getD, List.getElem?_eq_getElem h]
  exact List.getElem_mem h

lemma getLastD_eq_getElem {l : List α} (d : α) (_h : l ≠ [])
    (hlt : l.length - 1 < l.length) : l.getLastD d = l[l.length - 1] := by
  rw [List.getLastD_eq_getLast?, List.getLast?_eq_getElem?,
    List.getElem?_eq_getElem hlt]
  rfl

lemma removeFirstById_eq_none {l : List (Player A)} {pid : ℤ}
    (hfi : l.findIdx? (fun p => p.id = pid) = none) :
    removeFirstById pid l = l := by
  unfold removeFirstById
  rw [hfi]

lemma removeFirstById_eq_some {l : List (Player A)} {pid : ℤ} {i : ℕ}
    (hfi : l.findIdx? (fun p => p.id = pid) = some i) :
    removeFirstById pid l = (l.set i (l.getLastD dfltPlayer)).dropLast := by
  unfold removeFirstById
  rw [hfi]

lemma mem_removeFirstById {l : List (Player A)} {pid : ℤ} {x : Player A}
    (hx : x ∈ removeFirstById pid l) : x ∈ l := by
  rcases hfi : l.findIdx? (fun p => p.id = pid) with _ | i
  · rwa [removeFirstById_eq_none hfi] at hx
  · rw [removeFirstById_eq_some hfi] at hx
    have h1 : x ∈ l.set i (l.getLastD dfltPlayer) := List.dropLast_subset _ hx
    rcases List.mem_or_eq_of_mem_set h1 with h | h
    · exact h
    · obtain ⟨hlt, -, -⟩ := List.findIdx?_eq_some_iff_getElem.mp hfi
      have hne : l ≠ [] := by
        intro hnil
        subst hnil
        simp at hlt
      subst h
      have hlast : l.length - 1 < l.length := by omega
      rw [getLastD_eq_getElem _ hne hlast]
      exact List.getElem_mem hlast

lemma removeFirstById_no_id {l : List (Player A)} {pid : ℤ}
    (hnd : (l.map (fun p => p.id)).Nodup) :
    ∀ x ∈ removeFirstById pid l, x.id ≠ pid := by
  intro x hx
  rcases hfi : l.findIdx? (fun p => p.id = pid) with _ | i
  · rw [removeFirstById_eq_none hfi] at hx
    have := List.findIdx?_eq_none_iff.mp hfi x hx
    simpa using this
  · rw [removeFirstById_eq_some hfi] at hx
    obtain ⟨hlt, hpi, -⟩ := List.findIdx?_eq_some_iff_getElem.mp hfi
    have hpid : (l[i]).id = pid := by simpa using hpi
    have hne : l ≠ [] := by
      intro hnil
      subst hnil
      simp at hlt
    have hlast : l.length - 1 < l.length := by omega
    obtain ⟨j, hj, hxj⟩ := List.mem_iff_getElem.mp hx
    have hjl : j < l.length - 1 := by simpa using hj
    have hinj := List.nodup_iff_injective_getElem.mp hnd
    rw [List.getElem_dropLast, List.getElem_set] at hxj
    intro hxpid
    by_cases hij : i = j
    · rw [if_pos hij] at hxj
      rw [getLastD_eq_getElem _ hne hlast] at hxj
      have hlastm : l.length - 1 < (l.map (fun p => p.id)).length := by simpa using hlast
      have hltm : i < (l.map (fun p => p.id)).length := by simpa using hlt
      have hideq : (l[l.length - 1]).id = (l[i]).id := by
        rw [hxj, hxpid, hpid]
      have hMeq : (l.map (fun p => p.id))[l.length - 1] = (l.map (fun p => p.id))[i] := by
        simp only [List.getElem_map]
        exact hideq
      have hfin := @hinj ⟨l.length - 1, hlastm⟩ ⟨i, hltm⟩ hMeq
      have : l.length - 1 = i := by simpa using congrArg Fin.val hfin
      omega
    · rw [if_neg hij] at hxj
      have hjlen : j < l.length := by omega
      have hjm : j < (l.map (fun p => p.id)).length := by simpa using hjlen
      have hltm : i < (l.map (fun p => p.id)).length := by simpa using hlt
      have hideq : (l[j]).id = (l[i]).id := by
        rw [hxj, hxpid, hpid]
      have hMeq : (l.map (fun p => p.id))[j] = (l.map (fun p => p.id))[i] := by
        simp only [List.getElem_map]
        exact hideq
      have hfin := @hinj ⟨j, hjm⟩ ⟨i, hltm⟩ hMeq
      have : j = i := by simpa using congrArg Fin.val hfin
      omega

lemma removeFirstById_nodup {l : List (Player A)} {pid : ℤ}
    (hnd : (l.map (fun p => p.id)).Nodup) :
    ((removeFirstById pid l).map (fun p => p.id)).Nodup := by
  rcases hfi : l.findIdx? (fun p => p.id = pid) with _ | i
  · rwa [removeFirstById_eq_none hfi]
  · rw [removeFirstById_eq_some hfi]
    obtain ⟨hlt, -, -⟩ := List.findIdx?_eq_some_iff_getElem.mp hfi
    have hne : l ≠ [] := by
      intro hnil
      subst hnil
      simp at hlt
    have hlast : l.length - 1 < l.length := by omega
    have hinj := List.nodup_iff_injective_getElem.mp hnd
    rw [List.nodup_iff_injective_getElem]
    rintro ⟨a, ha⟩ ⟨b, hb⟩ hab
    have ha2 : a < l.length - 1 := by simpa using ha
    have hb2 : b < l.length - 1 := by simpa using hb
    have hgl : ∀ (k : ℕ) (hk : k < l.length - 1),
        (((l.set i (l.getLastD dfltPlayer)).dropLast).map (fun p => p.id)).get
          ⟨k, by simpa using hk⟩ =
        (l.map (fun p => p.id)).get
          ⟨if i = k then l.length - 1 else k, by
            simp only [List.length_map]
            split <;> omega⟩ := by
      intro k hk
      simp only [List.get_eq_getElem]
      rw [List.getElem_map, List.getElem_dropLast, List.getElem_set, List.getElem_map]
      split
      · exact congrArg (fun p : Player A => p.id) (getLastD_eq_getElem _ hne hlast)
      · rfl
    have hab2 : (((l.set i (l.getLastD dfltPlayer)).dropLast).map (fun p => p.id)).get
          ⟨a, ha⟩ =
        (((l.set i (l.getLastD dfltPlayer)).dropLast).map (fun p => p.id)).get
          ⟨b, hb⟩ := hab
    rw [hgl a ha2, hgl b hb2] at hab2
    have hfin := @hinj
      ⟨if i = a then l.length - 1 else a, by simp only [List.length_map]; split <;> omega⟩
      ⟨if i = b then l.length - 1 else b, by simp only [List.length_map]; split <;> omega⟩
      (by simpa only [List.get_eq_getElem] using hab2)
    have hv : (if i = a then l.length - 1 else a) = (if i = b then l.length - 1 else b) := by
      simpa using congrArg Fin.val hfin
    have hab3 : a = b := by
      by_cases hia : i = a <;> by_cases hib : i = b
      · omega
      · rw [if_pos hia, if_neg hib] at hv
        omega
      · rw [if_neg hia, if_pos hib] at hv
        omega
      · rw [if_neg hia, if_neg hib] at hv
        exact hv
    exact Fin.ext hab3

/-! ## Collision-phase invariants (for claim C10) -/

lemma takeDamage_health_nonneg (d : ℤ) (h : HealthComponent) :
    0 ≤ (takeDamage d h).health := by
  simp only [takeDamage]
  split <;> omega

lemma takeDamage_maxHealth (d : ℤ) (h : HealthComponent) :
    (takeDamage d h).maxHealth = h.maxHealth := rfl

lemma chc_snd_health (now sid : ℤ) (h : HealthComponent) :
    (checkHitCooldown now sid h).2.health = h.health ∧
    (checkHitCooldown now sid h).2.maxHealth = h.maxHealth := by
  simp only [checkHitCooldown]
  rcases h.lastHitById sid with _ | t
  · exact ⟨rfl, rfl⟩
  · simp only
    split_ifs <;> exact ⟨rfl, rfl⟩

lemma getD_maxHealth_nonneg {g : GameState A} {j : ℕ}
    (hhp : ∀ p ∈ g.players, 0 ≤ p.health ∧ 0 ≤ p.maxHealth) :
    0 ≤ (g.players.getD j dfltPlayer).maxHealth := by
  by_cases hjl : j < g.players.length
  · exact (hhp _ (getD_mem hjl)).2
  · rw [List.getD_eq_getElem?_getD, List.getElem?_eq_none (by omega)]
    norm_num [dfltPlayer, dfltHealth]

lemma weaponVsPlayers_inv (P0 M0 : List ℤ) (now : ℤ) (i k : ℕ)
    (acc : GameState A × List Notif) (h : stInv P0 M0 acc.1) :
    stInv P0 M0 (weaponVsPlayers now i k acc).1 := by
  unfold weaponVsPlayers
  refine foldl_inv (fun (a : GameState A × List Notif) => stInv P0 M0 a.1) _ _ _ h ?_
  intro acc2 j hj hinv
  obtain ⟨hP, hM, hhp, hhm, hpots⟩ := hinv
  simp only
  split_ifs <;>
    first
    | exact ⟨hP, hM, hhp, hhm, hpots⟩
    | (refine ⟨Eq.trans (map_modifyAt_const _ _ _ _ dfltPlayer (fun _ => rfl)) hP,
          hM, ?_, hhm, hpots⟩
       intro x hx
       rcases mem_modifyAt_const hx with hmem | hval
       · exact hhp x hmem
       · subst hval
         refine ⟨takeDamage_health_nonneg _ _, ?_⟩
         simp only [takeDamage_maxHealth]
         rw [(chc_snd_health _ _ _).2]
         exact getD_maxHealth_nonneg hhp)

lemma weaponVsMonsters_inv (P0 M0 : List ℤ) (now : ℤ) (i k : ℕ)
    (acc : GameState A × List Notif) (h : stInv P0 M0 acc.1) :
    stInv P0 M0 (weaponVsMonsters now i k acc).1 := by
  unfold weaponVsMonsters
  refine foldl_inv (fun (a : GameState A × List Notif) => stInv P0 M0 a.1) _ _ _ h ?_
  intro acc2 q hq hinv
  obtain ⟨hP, hM, hhp, hhm, hpots⟩ := hinv
  simp only
  split_ifs <;>
    first
    | exact ⟨hP, hM, hhp, hhm, hpots⟩
    | (refine ⟨hP,
          Eq.trans (map_modifyAt_const _ _ _ _ dfltMonster (fun _ => rfl)) hM,
          hhp, ?_, hpots⟩
       intro x hx
       rcases mem_modifyAt_const hx with hmem | hval
       · exact hhm x hmem
       · subst hval
         exact takeDamage_health_nonneg _ _)

lemma csWeapons_inv (P0 M0 : List ℤ) (now : ℤ) (g : GameState A)
    (h : stInv P0 M0 g) : stInv P0 M0 (csWeapons now g).1 := by
  unfold csWeapons
  refine foldl_inv (fun (a : GameState A × List Notif) => stInv P0 M0 a.1) _ _ _ h ?_
  intro acc i hi hinv
  refine foldl_inv (fun (a : GameState A × List Notif) => stInv P0 M0 a.1) _ _ _ hinv ?_
  intro acc2 k hk hinv2
  exact weaponVsMonsters_inv P0 M0 now i k _ (weaponVsPlayers_inv P0 M0 now i k _ hinv2)

lemma csMonsterPlayer_inv (P0 M0 : List ℤ) (now : ℤ) (g : GameState A)
    (h : stInv P0 M0 g) : stInv P0 M0 (csMonsterPlayer now g).1 := by
  unfold csMonsterPlayer
  refine foldl_inv (fun (a : GameState A × List Notif) => stInv P0 M0 a.1) _ _ _ h ?_
  intro acc q hq hinv
  refine foldl_inv (fun (a : GameState A × List Notif) => stInv P0 M0 a.1) _ _ _ hinv ?_
  intro acc2 j hj hinv2
  obtain ⟨hP, hM, hhp, hhm, hpots⟩ := hinv2
  simp only
  split_ifs <;>
    first
    | exact ⟨hP, hM, hhp, hhm, hpots⟩
    | (refine ⟨Eq.trans (map_modifyAt_const _ _ _ _ dfltPlayer (fun _ => rfl)) hP,
          hM, ?_, hhm, hpots⟩
       intro x hx
       rcases mem_modifyAt_const hx with hmem | hval
       · exact hhp x hmem
       · subst hval
         refine ⟨takeDamage_health_nonneg _ _, ?_⟩
         simp only [takeDamage_maxHealth]
         rw [(chc_snd_health _ _ _).2]
         exact getD_maxHealth_nonneg hhp)

lemma onCollectPotion_id (pot : HealingPotion) (p : Player A) :
    (onCollectPotion pot p).1.id = p.id := by
  simp only [onCollectPotion, healBy]
  split_ifs <;> rfl

lemma onCollectPotion_hp (pot : HealingPotion) (p : Player A)
    (hh : 0 ≤ p.health) (hmh : 0 ≤ p.maxHealth) (ha : 0 ≤ pot.amount) :
    0 ≤ (onCollectPotion pot p).1.health ∧
    0 ≤ (onCollectPotion pot p).1.maxHealth := by
  simp only [onCollectPotion, healBy]
  split_ifs <;> exact ⟨by simp only; omega, by simp only; omega⟩

lemma onCollectExp_id (e : Experience) (p : Player A) :
    (onCollectExp e p).1.id = p.id := by
  simp only [onCollectExp]
  split_ifs <;> rfl

lemma onCollectExp_hp (e : Experience) (p : Player A)
    (hh : 0 ≤ p.health) (hmh : 0 ≤ p.maxHealth) :
    0 ≤ (onCollectExp e p).1.health ∧ 0 ≤ (onCollectExp e p).1.maxHealth := by
  simp only [onCollectExp]
  split_ifs <;> exact ⟨by simp only; omega, by simp only; omega⟩

lemma getD_hp_nonneg {g : GameState A} {j : ℕ}
    (hhp : ∀ p ∈ g.players, 0 ≤ p.health ∧ 0 ≤ p.maxHealth) :
    0 ≤ (g.players.getD j dfltPlayer).health ∧
    0 ≤ (g.players.getD j dfltPlayer).maxHealth := by
  by_cases hjl : j < g.players.length
  · exact hhp _ (getD_mem hjl)
  · rw [List.getD_eq_getElem?_getD, List.getElem?_eq_none (by omega)]
    norm_num [dfltPlayer, dfltHealth]

lemma csPotions_inv (P0 M0 : List ℤ) (g : GameState A)
    (h : stInv P0 M0 g) : stInv P0 M0 (csPotions g).1 := by
  obtain ⟨hP, hM, hhp, hhm, hpots⟩ := h
  unfold csPotions
  have key := foldl_inv
    (fun (a : (GameState A × List Notif) × List HealingPotion) =>
      (a.1.1.players.map (fun p => p.id) = P0 ∧
       a.1.1.monsters.map (fun m => m.id) = M0 ∧
       (∀ p ∈ a.1.1.players, 0 ≤ p.health ∧ 0 ≤ p.maxHealth) ∧
       (∀ m ∈ a.1.1.monsters, 0 ≤ m.health)) ∧
      (∀ pot ∈ a.2, 0 ≤ pot.amount))
    potionStep g.healingPotions ((g, []), []) ⟨⟨hP, hM, hhp, hhm⟩, by simp⟩ ?_
  · obtain ⟨⟨k1, k2, k3, k4⟩, k5⟩ := key
    exact ⟨k1, k2, k3, k4, k5⟩
  · intro acc pot hpot hinv
    obtain ⟨⟨i1, i2, i3, i4⟩, i5⟩ := hinv
    simp only [potionStep, processPotion]
    rcases hfi : acc.1.1.players.findIdx?
        (fun p => pot.toEntity.checkCollision p.toEntity) with _ | j
    · simp only [hfi]
      refine ⟨⟨i1, i2, i3, i4⟩, ?_⟩
      intro x hx
      rcases List.mem_append.mp hx with hm | hm
      · exact i5 x hm
      · rw [List.mem_singleton] at hm
        rw [hm]
        exact hpots pot hpot
    · simp only [hfi]
      refine ⟨⟨?_, i2, ?_, i4⟩, ?_⟩
      · exact Eq.trans
          (map_modifyAt_const _ _ _ _ dfltPlayer (fun _ => onCollectPotion_id _ _)) i1
      · intro x hx
        rcases mem_modifyAt_const hx with hmem | hval
        · exact i3 x hmem
        · subst hval
          exact onCollectPotion_hp _ _ (getD_hp_nonneg i3).1 (getD_hp_nonneg i3).2
            (hpots pot hpot)
      · intro x hx
        rcases List.mem_append.mp hx with hm | hm
        · exact i5 x hm
        · simp at hm

lemma csExperiences_inv (P0 M0 : List ℤ) (g : GameState A)
    (h : stInv P0 M0 g) : stInv P0 M0 (csExperiences g).1 := by
  obtain ⟨hP, hM, hhp, hhm, hpots⟩ := h
  unfold csExperiences
  have key := foldl_inv
    (fun (a : (GameState A × List Notif) × List Experience) =>
      a.1.1.players.map (fun p => p.id) = P0 ∧
      a.1.1.monsters.map (fun m => m.id) = M0 ∧
      (∀ p ∈ a.1.1.players, 0 ≤ p.health ∧ 0 ≤ p.maxHealth) ∧
      (∀ m ∈ a.1.1.monsters, 0 ≤ m.health) ∧
      (∀ pot ∈ a.1.1.healingPotions, 0 ≤ pot.amount))
    expOrbStep g.experiences ((g, []), []) ⟨hP, hM, hhp, hhm, hpots⟩ ?_
  · exact key
  · intro acc e he hinv
    obtain ⟨i1, i2, i3, i4, i5⟩ := hinv
    simp only [expOrbStep, processExpOrb]
    rcases hfi : acc.1.1.players.findIdx?
        (fun p => e.toEntity.checkCollision p.toEntity) with _ | j
    · simp only [hfi]
      exact ⟨i1, i2, i3, i4, i5⟩
    · simp only [hfi]
      refine ⟨?_, i2, ?_, i4, i5⟩
      · exact Eq.trans
          (map_modifyAt_const _ _ _ _ dfltPlayer (fun _ => onCollectExp_id _ _)) i1
      · intro x hx
        rcases mem_modifyAt_const hx with hmem | hval
        · exact i3 x hmem
        · subst hval
          exact onCollectExp_hp _ _ (getD_hp_nonneg i3).1 (getD_hp_nonneg i3).2

lemma csAll_inv (P0 M0 : List ℤ) (now : ℤ) (g : GameState A)
    (h : stInv P0 M0 g) : stInv P0 M0 (csAll now g).1 :=
  csExperiences_inv P0 M0 _
    (csPotions_inv P0 M0 _
      (csMonsterPlayer_inv P0 M0 now _
        (csWeapons_inv P0 M0 now g h)))

/-! ## Dead-entity cleanup lemmas (for claim C10) -/

lemma removeDeadMonsters_no_dead (rolls : ℕ → MonsterDeathRoll) (g : GameState A) :
    ∀ m ∈ (removeDeadMonsters rolls g).monsters,
      isDeadH m.toHealthComponent = false := by
  unfold removeDeadMonsters
  simp only
  have key := foldl_inv
    (fun (a : GameState A × List (Monster A)) =>
      ∀ m ∈ a.2, isDeadH m.toHealthComponent = false)
    (deadMonsterStep g.monsters rolls) (List.range g.monsters.length) (g, [])
    (by simp) ?_
  · exact key
  · intro acc q hq hinv
    simp only [deadMonsterStep]
    split_ifs with hdead hpot
    · exact hinv
    · exact hinv
    · intro m hm
      rcases List.mem_append.mp hm with h1 | h1
      · exact hinv m h1
      · rw [List.mem_singleton] at h1
        subst h1
        simpa using hdead

lemma spawnFold_players (L : List ℕ) (f : ℕ → ℤ) (f1 f2 : ℕ → ℚ) (x y : ℚ)
    (amount : ℤ) (g : GameState A) :
    (L.foldl (fun gg i => spawnExperienceP (f i) (f1 i) (f2 i) x y amount gg)
      g).players = g.players := by
  refine foldl_inv (fun (gg : GameState A) => gg.players = g.players) _ _ _ rfl ?_
  intro gg i hi hgg
  exact hgg

lemma removeDeadStep_players (deads : List (Player A)) (rolls : ℕ → DeathRoll)
    (acc : GameState A × List Notif) (n : ℕ) :
    (removeDeadStep deads rolls acc n).1.players =
      removeFirstById (deads.getD n dfltPlayer).id acc.1.players := by
  unfold removeDeadStep
  simp only
  split_ifs with hexp
  · exact congrArg (removeFirstById _) (spawnFold_players _ _ _ _ _ _ _ _)
  · rfl

lemma removal_fold_absent (deads : List (Player A)) (rolls : ℕ → DeathRoll)
    (idxs : List ℕ) (acc : GameState A × List Notif) (pid : ℤ)
    (h : ∀ x ∈ acc.1.players, x.id ≠ pid) :
    ∀ x ∈ (idxs.foldl (removeDeadStep deads rolls) acc).1.players, x.id ≠ pid := by
  refine foldl_inv
    (fun (a : GameState A × List Notif) => ∀ x ∈ a.1.players, x.id ≠ pid)
    _ _ _ h ?_
  intro acc2 n hn hinv x hx
  rw [removeDeadStep_players] at hx
  exact hinv x (mem_removeFirstById hx)

lemma removal_fold_no_id (deads : List (Player A)) (rolls : ℕ → DeathRoll)
    (idxs : List ℕ) (acc : GameState A × List Notif) (pid : ℤ) (n0 : ℕ)
    (hn0 : n0 ∈ idxs) (hid : (deads.getD n0 dfltPlayer).id = pid)
    (hnd : (acc.1.players.map (fun p => p.id)).Nodup) :
    ∀ x ∈ (idxs.foldl (removeDeadStep deads rolls) acc).1.players, x.id ≠ pid := by
  induction idxs generalizing acc with
  | nil => simp at hn0
  | cons n rest ih =>
    rw [List.foldl_cons]
    rcases List.mem_cons.mp hn0 with he | hr
    · subst he
      apply removal_fold_absent
      intro x hx
      rw [removeDeadStep_players] at hx
      rw [← hid]
      exact removeFirstById_no_id hnd x hx
    · refine ih (removeDeadStep deads rolls acc n) hr ?_
      rw [removeDeadStep_players]
      exact removeFirstById_nodup hnd

lemma map_mapIdx_eq {β γ : Type _} (l : List β) (f : ℕ → β → β) (g : β → γ)
    (h : ∀ i a, g (f i a) = g a) : (l.mapIdx f).map g = l.map g := by
  induction l generalizing f with
  | nil => rfl
  | cons a as ih =>
    rw [List.mapIdx_cons, List.map_cons, List.map_cons, h 0 a,
      ih (fun i => f (i + 1)) (fun i a => h (i + 1) a)]

/-! ## Claim C5: per-source hit cooldown -/

lemma chc_iff (now sid : ℤ) (h : HealthComponent) :
    (checkHitCooldown now sid h).1 = true ↔
      (h.lastHitById sid = none ∨
       ∃ t, h.lastHitById sid = some t ∧ now - t ≥ weaponHitCooldownNs) := by
  unfold checkHitCooldown
  rcases hrec : h.lastHitById sid with _ | t
  · simp
  · simp only
    split <;> simp_all

lemma chc_records (now sid : ℤ) (h : HealthComponent)
    (htrue : (checkHitCooldown now sid h).1 = true) :
    (checkHitCooldown now sid h).2.lastHitById sid = some now := by
  unfold checkHitCooldown at *
  rcases hrec : h.lastHitById sid with _ | t <;> simp_all
  split at htrue <;> simp_all

lemma chc_fail_frozen (now sid : ℤ) (h : HealthComponent)
    (hfalse : (checkHitCooldown now sid h).1 = false) :
    (checkHitCooldown now sid h).2 = h := by
  unfold checkHitCooldown at *
  rcases hrec : h.lastHitById sid with _ | t <;> simp_all
  split <;> simp_all

lemma chc_separation (t1 t2 sid : ℤ) (h : HealthComponent)
    (h1 : (checkHitCooldown t1 sid h).1 = true)
    (h2 : (checkHitCooldown t2 sid (checkHitCooldown t1 sid h).2).1 = true) :
    t2 - t1 ≥ weaponHitCooldownNs := by
  have hrec : (checkHitCooldown t1 sid h).2.lastHitById sid = some t1 :=
    chc_records t1 sid h h1
  rcases (chc_iff t2 sid (checkHitCooldown t1 sid h).2).mp h2 with hnone | ⟨t, ht, hge⟩
  · rw [hrec] at hnone; exact absurd hnone (by simp)
  · rw [hrec] at ht
    injection ht with ht
    omega

/-- Claim C5: `CheckHitCooldown(sourceId)` returns true and records the
current time iff no prior record exists for that source id or at least
1 second (10⁹ ns) elapsed since the recorded time; a failed check leaves
the component unchanged, so between any two successful damage events
from the same source id on the same target at least 1 second elapses. -/
theorem cooldown_gate_correct :
    (∀ (now sid : ℤ) (h : HealthComponent),
      (checkHitCooldown now sid h).1 = true ↔
        (h.lastHitById sid = none ∨
         ∃ t, h.lastHitById sid = some t ∧ now - t ≥ weaponHitCooldownNs)) ∧
    (∀ (now sid : ℤ) (h : HealthComponent),
      (checkHitCooldown now sid h).1 = true →
        (checkHitCooldown now sid h).2.lastHitById sid = some now) ∧
    (∀ (now sid : ℤ) (h : HealthComponent),
      (checkHitCooldown now sid h).1 = false → (checkHitCooldown now sid h).2 = h) ∧
    (∀ (t1 t2 sid : ℤ) (h : HealthComponent),
      (checkHitCooldown t1 sid h).1 = true →
      (checkHitCooldown t2 sid (checkHitCooldown t1 sid h).2).1 = true →
      t2 - t1 ≥ weaponHitCooldownNs) :=
  ⟨chc_iff, chc_records, chc_fail_frozen, chc_separation⟩

/-- Concrete instance of `cooldown_gate_correct`: two successful checks on
the same source id are at least 10⁹ ns apart. -/
theorem cooldown_gate_correct_witness :
    (1000000000 : ℤ) - 0 ≥ weaponHitCooldownNs :=
  cooldown_gate_correct.2.2.2 0 1000000000 5 cooldownWitnessH rfl rfl

/-! ## Claim C6: inbound message handling -/

/-- Claim C6 (code bug): malformed JSON, a non-object, a missing or
non-string `type`, an unknown type, and a missing `direction` field are
all logged/dropped with the reader still running, but a `direction`
message whose `direction` field holds a non-number reaches the unchecked
type assertion `data["direction"].(float64)` and panics, aborting the
process. -/
theorem direction_type_assertion_panics :
    processInbound { player := some 7 } 0
      (some (.jobj [(("type"), .jstr ("direction")), (("direction"), .jstr ("up"))])) =
      .panicked ∧
    processInbound { player := some 7 } 0 none =
      .ok { player := some 7 } [.logBadJson] ∧
    processInbound { player := some 7 } 0 (some (.jnum 3)) =
      .ok { player := some 7 } [.logBadJson] ∧
    processInbound { player := some 7 } 0 (some (.jobj [(("type"), .jnum 3)])) =
      .ok { player := some 7 } [] ∧
    processInbound { player := some 7 } 0 (some (.jobj [(("type"), .jstr ("fly"))])) =
      .ok { player := some 7 } [.logUnknownType ("fly")] ∧
    processInbound { player := some 7 } 0
      (some (.jobj [(("type"), .jstr ("direction"))])) =
      .ok { player := some 7 } [] ∧
    processInbound { player := some 7 } 0
      (some (.jobj [(("type"), .jstr ("direction")), (("direction"), .jnum (1/2))])) =
      .ok { player := some 7 } [.setDirection (1/2)] :=
  ⟨rfl, rfl, rfl, rfl, rfl, rfl, rfl⟩

/-! ## Claim C9: wall clamping and bouncing -/

/-- Claim C9: when a monster's proposed move would take its box outside
the arena it is clamped so the box touches the wall it struck and its
direction is reflected on that wall's axis (x-wall: `θ ← π − θ`,
y-wall: `θ ← −θ`); a player's move is clamped the same way and never
changes the direction.  `mnX/mnY/pnX/pnY` name the proposed positions,
`hnr` rules out the 1%-probability random direction reroll that runs
after the bounce. -/
theorem wall_clamp_and_bounce {A : Type} [Field A] (piA : A) (dt c s r rdir : ℚ)
    (m : Monster A) (p : Player A) (mnX mnY pnX pnY : ℚ)
    (hnr : ¬ r < 1/100)
    (hmx : mnX = m.x + c * m.speed * dt) (hmy : mnY = m.y + s * m.speed * dt)
    (hpx : pnX = p.x + c * p.speed * dt) (hpy : pnY = p.y + s * p.speed * dt) :
    ((mnX - m.width/2 < gameMinX → ¬ mnY - m.height/2 < gameMinY →
      ¬ mnY + m.height/2 > gameMaxY →
        (monsterMove piA dt c s r rdir m).x = gameMinX + m.width/2 ∧
        (monsterMove piA dt c s r rdir m).y = mnY ∧
        (monsterMove piA dt c s r rdir m).direction = piA - m.direction) ∧
     (¬ mnX - m.width/2 < gameMinX → mnX + m.width/2 > gameMaxX →
      ¬ mnY - m.height/2 < gameMinY → ¬ mnY + m.height/2 > gameMaxY →
        (monsterMove piA dt c s r rdir m).x = gameMaxX - m.width/2 ∧
        (monsterMove piA dt c s r rdir m).y = mnY ∧
        (monsterMove piA dt c s r rdir m).direction = piA - m.direction) ∧
     (¬ mnX - m.width/2 < gameMinX → ¬ mnX + m.width/2 > gameMaxX →
      mnY - m.height/2 < gameMinY →
        (monsterMove piA dt c s r rdir m).x = mnX ∧
        (monsterMove piA dt c s r rdir m).y = gameMinY + m.height/2 ∧
        (monsterMove piA dt c s r rdir m).direction = -m.direction) ∧
     (¬ mnX - m.width/2 < gameMinX → ¬ mnX + m.width/2 > gameMaxX →
      ¬ mnY - m.height/2 < gameMinY → mnY + m.height/2 > gameMaxY →
        (monsterMove piA dt c s r rdir m).x = mnX ∧
        (monsterMove piA dt c s r rdir m).y = gameMaxY - m.height/2 ∧
        (monsterMove piA dt c s r rdir m).direction = -m.direction) ∧
     (¬ mnX - m.width/2 < gameMinX → ¬ mnX + m.width/2 > gameMaxX →
      ¬ mnY - m.height/2 < gameMinY → ¬ mnY + m.height/2 > gameMaxY →
        (monsterMove piA dt c s r rdir m).x = mnX ∧
        (monsterMove piA dt c s r rdir m).y = mnY ∧
        (monsterMove piA dt c s r rdir m).direction = m.direction)) ∧
    ((playerMove dt c s p).direction = p.direction ∧
     (pnX - p.width/2 < gameMinX →
        (playerMove dt c s p).x = gameMinX + p.width/2) ∧
     (¬ pnX - p.width/2 < gameMinX → pnX + p.width/2 > gameMaxX →
        (playerMove dt c s p).x = gameMaxX - p.width/2) ∧
     (¬ pnX - p.width/2 < gameMinX → ¬ pnX + p.width/2 > gameMaxX →
        (playerMove dt c s p).x = pnX) ∧
     (pnY - p.height/2 < gameMinY →
        (playerMove dt c s p).y = gameMinY + p.height/2) ∧
     (¬ pnY - p.height/2 < gameMinY → pnY + p.height/2 > gameMaxY →
        (playerMove dt c s p).y = gameMaxY - p.height/2) ∧
     (¬ pnY - p.height/2 < gameMinY → ¬ pnY + p.height/2 > gameMaxY →
        (playerMove dt c s p).y = pnY)) := by
  subst hmx hmy hpx hpy
  constructor
  · refine ⟨?_, ?_, ?_, ?_, ?_⟩ <;>
      (intros;
       simp only [monsterMove];
       split_ifs;
       all_goals simp_all)
  · refine ⟨rfl, ?_, ?_, ?_, ?_, ?_, ?_⟩ <;>
      (intros;
       simp only [playerMove];
       split_ifs;
       all_goals simp_all)

/-- Concrete instance of `wall_clamp_and_bounce`: a monster moving left
into the west wall is clamped to it and its direction becomes `π − θ`;
a player likewise clamped keeps its direction. -/
theorem wall_clamp_and_bounce_witness :
    (monsterMove (355/113 : ℚ) (1/60) (-1) 0 (1/2) 0 bounceMonster).x =
      gameMinX + bounceMonster.width/2 ∧
    (monsterMove (355/113 : ℚ) (1/60) (-1) 0 (1/2) 0 bounceMonster).direction =
      355/113 - bounceMonster.direction ∧
    (playerMove (1/60) (-1) 0 wallPlayer).x = gameMinX + wallPlayer.width/2 ∧
    (playerMove (1/60) (-1) 0 wallPlayer).direction = wallPlayer.direction := by
  have h := wall_clamp_and_bounce (355/113 : ℚ) (1/60) (-1) 0 (1/2) 0
    bounceMonster wallPlayer
    (bounceMonster.x + (-1) * bounceMonster.speed * (1/60))
    (bounceMonster.y + 0 * bounceMonster.speed * (1/60))
    (wallPlayer.x + (-1) * wallPlayer.speed * (1/60))
    (wallPlayer.y + 0 * wallPlayer.speed * (1/60))
    (by norm_num) rfl rfl rfl rfl
  obtain ⟨hm, hp⟩ := h
  have hmres := hm.1 (by norm_num [bounceMonster, gameMinX])
    (by norm_num [bounceMonster, gameMinY]) (by norm_num [bounceMonster, gameMaxY])
  exact ⟨hmres.1, hmres.2.2,
    hp.2.1 (by norm_num [wallPlayer, newPlayerP, gameMinX]), hp.1⟩

/-! ## Claim C1: the damage / max-health stat rule -/

lemma playerMove_stats (dt c s : ℚ) (p : Player A) :
    (playerMove dt c s p).damage = p.damage ∧
    (playerMove dt c s p).maxHealth = p.maxHealth ∧
    (playerMove dt c s p).experience = p.experience ∧
    (playerMove dt c s p).level = p.level ∧
    (playerMove dt c s p).health = p.health ∧
    (playerMove dt c s p).id = p.id ∧
    (playerMove dt c s p).hasClient = p.hasClient :=
  ⟨rfl, rfl, rfl, rfl, rfl, rfl, rfl⟩

lemma playerUpdateOne_stats (dt : ℚ) (tr : PlayerTrig) (p : Player A) :
    (playerUpdateOne dt tr p).damage = p.damage + Int.tdiv p.experience 100 ∧
    (playerUpdateOne dt tr p).maxHealth = p.maxHealth + Int.tdiv p.experience 100 ∧
    (playerUpdateOne dt tr p).experience = p.experience ∧
    (playerUpdateOne dt tr p).level = p.level ∧
    (playerUpdateOne dt tr p).health = p.health ∧
    (playerUpdateOne dt tr p).id = p.id ∧
    (playerUpdateOne dt tr p).hasClient = p.hasClient :=
  ⟨rfl, rfl, rfl, rfl, rfl, rfl, rfl⟩

lemma onCollectExp_statInvariant (e : Experience) (p : Player A)
    (hp : statInvariant p) : statInvariant (onCollectExp e p).1 := by
  obtain ⟨hd, hm⟩ := hp
  unfold statInvariant
  simp only [onCollectExp]
  split_ifs with h1 h2
  · exact ⟨hd, hm⟩
  · simp only
    constructor <;> omega
  · exact ⟨hd, hm⟩

/-- Claim C1 (amended): the ordinary per-tick player update adds
`⌊Experience/100⌋` (Go integer division) to Damage and MaxHealth, so the
stated relation `Damage = 10 + (Level−1)`, `MaxHealth = 100 + 10·(Level−1)`
is left intact by the per-tick update exactly when `Experience < 100`; it
holds at player creation and is preserved by every experience collection
(in particular by the level-up rule `damage+1`, `maxHealth+10` per
level). -/
theorem stat_rule_amended :
    (∀ (dt : ℚ) (tr : PlayerTrig) (p : Player A),
      (playerUpdateOne dt tr p).damage = p.damage + Int.tdiv p.experience 100 ∧
      (playerUpdateOne dt tr p).maxHealth = p.maxHealth + Int.tdiv p.experience 100 ∧
      (playerUpdateOne dt tr p).level = p.level) ∧
    (∀ (dt : ℚ) (tr : PlayerTrig) (p : Player A),
      0 ≤ p.experience → p.experience < 100 →
      ((playerUpdateOne dt tr p).damage = p.damage ∧
       (playerUpdateOne dt tr p).maxHealth = p.maxHealth ∧
       (statInvariant p → statInvariant (playerUpdateOne dt tr p)))) ∧
    (∀ (e : Experience) (p : Player A),
      statInvariant p → statInvariant (onCollectExp e p).1) ∧
    (∀ (pid w1 w2 : ℤ), statInvariant (newPlayerP pid w1 w2 : Player A)) := by
  refine ⟨?_, ?_, onCollectExp_statInvariant, ?_⟩
  · intro dt tr p
    obtain ⟨h1, h2, -, h4, -⟩ := playerUpdateOne_stats dt tr p
    exact ⟨h1, h2, h4⟩
  · intro dt tr p h0 h100
    obtain ⟨h1, h2, -, h4, -⟩ := playerUpdateOne_stats dt tr p
    have hz : Int.tdiv p.experience 100 = 0 := Int.tdiv_eq_zero_of_lt h0 h100
    rw [hz] at h1 h2
    refine ⟨by omega, by omega, ?_⟩
    rintro ⟨hd, hm⟩
    exact ⟨by omega, by omega⟩
  · intro pid w1 w2
    constructor <;> rfl

/-- Claim C1 counterexample: a player satisfying the claimed invariant
(and the game's own `experience < level·10` invariant) whose Damage and
MaxHealth change during the ordinary per-tick player update, leaving the
claimed relation false at the end of the tick. -/
theorem stat_rule_counterexample :
    statInvariant statCexPlayer ∧
    statCexPlayer.experience < statCexPlayer.level * 10 ∧
    statCexTrig.moveC ^ 2 + statCexTrig.moveS ^ 2 = 1 ∧
    (playerUpdateOne (1/60) statCexTrig statCexPlayer).damage ≠ statCexPlayer.damage ∧
    ¬ statInvariant (playerUpdateOne (1/60) statCexTrig statCexPlayer) := by
  obtain ⟨h1, h2, -, h4, -⟩ := playerUpdateOne_stats (1/60) statCexTrig statCexPlayer
  have hd : statCexPlayer.damage = 20 := rfl
  have hl : statCexPlayer.level = 11 := rfl
  have hmx : statCexPlayer.maxHealth = 200 := rfl
  have he : statCexPlayer.experience = 102 := rfl
  have htdiv : Int.tdiv (102 : ℤ) 100 = 1 := rfl
  refine ⟨⟨by norm_num [statCexPlayer, newPlayerP, statInvariant],
          by norm_num [statCexPlayer, newPlayerP, statInvariant]⟩,
         by rw [he, hl]; norm_num,
         by norm_num [statCexTrig], ?_, ?_⟩
  · rw [h1, he, htdiv, hd]; norm_num
  · rintro ⟨hbad, -⟩
    rw [h1, h4, he, htdiv, hd, hl] at hbad
    norm_num at hbad

/-- Concrete instance of `stat_rule_amended`: with experience below 100
the per-tick update leaves Damage and MaxHealth unchanged. -/
theorem stat_rule_amended_witness :
    (playerUpdateOne (1/60) statCexTrig statWitnessPlayer).damage =
      statWitnessPlayer.damage ∧
    (playerUpdateOne (1/60) statCexTrig statWitnessPlayer).maxHealth =
      statWitnessPlayer.maxHealth ∧
    statInvariant (newPlayerP 8 800 801 : Player ℚ) := by
  have h := (@stat_rule_amended ℚ _).2.1 (1/60) statCexTrig statWitnessPlayer
    (by norm_num [statWitnessPlayer, newPlayerP]) (by norm_num [statWitnessPlayer, newPlayerP])
  exact ⟨h.1, h.2.1, (@stat_rule_amended ℚ _).2.2.2 8 800 801⟩

/-! ## Claim C2: entities inside the arena -/

/-- Claim C2 (amended): the clamping in `Player.Move` and `Monster.Move`
keeps every player and monster box inside the arena (their sizes fit the
arena); weapons and experience orbs are NOT clamped and can leave it
(see the counterexample). -/
theorem movers_stay_inside :
    (∀ (dt c s : ℚ) (p : Player A),
      0 ≤ p.width → p.width ≤ gameMaxX → 0 ≤ p.height → p.height ≤ gameMaxY →
      insideArena (playerMove dt c s p).toEntity) ∧
    (∀ (piA : A) (dt c s r rdir : ℚ) (m : Monster A),
      0 ≤ m.width → m.width ≤ gameMaxX → 0 ≤ m.height → m.height ≤ gameMaxY →
      insideArena (monsterMove piA dt c s r rdir m).toEntity) := by
  constructor
  · intro dt c s p hw0 hw hh0 hh
    simp only [gameMaxX, gameMaxY] at hw hh
    simp only [playerMove, insideArena, gameMinX, gameMinY, gameMaxX, gameMaxY] at *
    split_ifs <;>
      refine ⟨by linarith, by linarith, by linarith, by linarith⟩
  · intro piA dt c s r rdir m hw0 hw hh0 hh
    simp only [gameMaxX, gameMaxY] at hw hh
    simp only [monsterMove, insideArena, gameMinX, gameMinY, gameMaxX, gameMaxY] at *
    split_ifs <;>
      refine ⟨by linarith, by linarith, by linarith, by linarith⟩

/-- Concrete instance of `movers_stay_inside`: a player and a monster
pushed through the walls end up inside the arena. -/
theorem movers_stay_inside_witness :
    insideArena (playerMove (1/60) (-1) (1) arenaWitnessPlayer).toEntity ∧
    insideArena (monsterMove (355/113 : ℚ) (1/60) 1 (-1) (1/2) 0 arenaWitnessMonster).toEntity :=
  ⟨(@movers_stay_inside ℚ _).1 (1/60) (-1) 1 arenaWitnessPlayer
      (by norm_num [arenaWitnessPlayer, newPlayerP])
      (by norm_num [arenaWitnessPlayer, newPlayerP, gameMaxX])
      (by norm_num [arenaWitnessPlayer, newPlayerP])
      (by norm_num [arenaWitnessPlayer, newPlayerP, gameMaxY]),
   (@movers_stay_inside ℚ _).2 (355/113) (1/60) 1 (-1) (1/2) 0 arenaWitnessMonster
      (by norm_num [arenaWitnessMonster, bounceMonster])
      (by norm_num [arenaWitnessMonster, bounceMonster, gameMaxX])
      (by norm_num [arenaWitnessMonster, bounceMonster])
      (by norm_num [arenaWitnessMonster, bounceMonster, gameMaxY])⟩

/-- Claim C2 counterexample: starting from a state in which the player and
both of its weapons are inside the arena, one ordinary per-tick player
update places the first orbiting weapon (orbit radius 30 around a player
clamped at the west wall) with its box outside the arena. -/
theorem weapon_leaves_arena :
    insideArena arenaCexPlayer.toEntity ∧
    (∀ w ∈ arenaCexPlayer.weapons, insideArena w.toEntity) ∧
    arenaCexTrig.moveC ^ 2 + arenaCexTrig.moveS ^ 2 = 1 ∧
    (∀ i, ((arenaCexTrig.weaponTrig i).1) ^ 2 + ((arenaCexTrig.weaponTrig i).2) ^ 2 = 1) ∧
    ¬ insideArena
      (((playerUpdateOne (1/60) arenaCexTrig arenaCexPlayer).weapons.getD 0
          dfltWeapon).toEntity) := by
  refine ⟨?_, ?_, by norm_num [arenaCexTrig], ?_, ?_⟩
  · norm_num [arenaCexPlayer, newPlayerP, insideArena, gameMaxX, gameMaxY]
  · intro w hw
    simp only [arenaCexPlayer, newPlayerP, List.mem_cons, List.not_mem_nil,
      or_false] at hw
    rcases hw with h | h <;> subst h <;>
      norm_num [insideArena, gameMaxX, gameMaxY]
  · intro i
    simp only [arenaCexTrig]
    split_ifs <;> norm_num
  · simp only [playerUpdateOne, playerMove, arenaCexPlayer, arenaCexTrig, newPlayerP]
    norm_num [insideArena, gameMinX, gameMinY, gameMaxX, gameMaxY]

/-! ## Claim C4: healing-potion collection -/

/-- Claim C4: a potion overlapped by at least one player is consumed by
the first overlapping player in iteration order: the potion is dropped
from the list and its id released, only that player changes, its health
is raised by the heal amount clamped at `maxHealth`, and the single
`potionCollected` notification to that player reports the actually
healed amount (`Heal`'s return value, the health delta). -/
theorem potion_collection_correct (st : GameState A) (pot : HealingPotion) (j : ℕ)
    (p : Player A)
    (hj : st.players.findIdx? (fun q => pot.toEntity.checkCollision q.toEntity) = some j)
    (hp : st.players.getD j dfltPlayer = p)
    (hc : p.hasClient = true) :
    (processPotion st pot).2 = none ∧
    (processPotion st pot).1.1.usedIDs ("potion") pot.id = false ∧
    pot.toEntity.checkCollision p.toEntity = true ∧
    (∀ k, k < j →
      pot.toEntity.checkCollision ((st.players.getD k dfltPlayer).toEntity) = false) ∧
    (processPotion st pot).1.1.players =
      modifyAt st.players j (fun _ => (onCollectPotion pot p).1) ∧
    (processPotion st pot).1.1.healingPotions = st.healingPotions ∧
    (onCollectPotion pot p).1.health = min p.maxHealth (p.health + pot.amount) ∧
    (onCollectPotion pot p).1.maxHealth = p.maxHealth ∧
    (processPotion st pot).1.2 =
      [.potionCollected p.id pot.id pot.amount
        ((onCollectPotion pot p).1.health - p.health)
        ((onCollectPotion pot p).1.health)] := by
  obtain ⟨hlt, hov, hmin⟩ := List.findIdx?_eq_some_iff_getElem.mp hj
  have hgetD : st.players.getD j dfltPlayer = st.players[j] := by
    simp [List.getD_eq_getElem?_getD, List.getElem?_eq_getElem hlt]
  rw [hgetD] at hp
  refine ⟨?_, ?_, ?_, ?_, ?_, ?_, ?_, ?_, ?_⟩
  · simp only [processPotion, hj]
  · simp only [processPotion, hj, releaseID]
    simp
  · rw [hp] at hov
    exact hov
  · intro k hk
    have := hmin k hk
    have hklt : k < st.players.length := Nat.lt_trans hk hlt
    have hgk : st.players.getD k dfltPlayer = st.players[k] := by
      simp [List.getD_eq_getElem?_getD, List.getElem?_eq_getElem hklt]
    rw [hgk]
    simpa using this
  · simp only [processPotion, hj, hgetD, hp]
  · simp only [processPotion, hj]
  · simp only [onCollectPotion, hc, healBy]
    simp only [Bool.true_eq_false, if_false]
    split_ifs <;> simp <;> omega
  · simp only [onCollectPotion, hc, healBy]
    simp only [Bool.true_eq_false, if_false]
  · simp only [processPotion, hj, hgetD, hp, onCollectPotion, hc, healBy]
    simp only [Bool.true_eq_false, if_false]
    split_ifs <;> simp

/-- Concrete instance of `potion_collection_correct`: a full-health player
standing on a potion consumes it, the reported heal is 0 (clamped), and
the potion id is released. -/
theorem potion_collection_correct_witness :
    (processPotion potionWitnessState witnessPotion).2 = none ∧
    (processPotion potionWitnessState witnessPotion).1.1.usedIDs ("potion") 50 = false ∧
    (onCollectPotion witnessPotion (newPlayerP 1 100 101 : Player ℚ)).1.health =
      min (newPlayerP 1 100 101 : Player ℚ).maxHealth
        ((newPlayerP 1 100 101 : Player ℚ).health + witnessPotion.amount) := by
  have hfind : potionWitnessState.players.findIdx?
      (fun q => witnessPotion.toEntity.checkCollision q.toEntity) = some 0 := by
    simp [potionWitnessState, witnessPotion, newPlayerP, Entity.checkCollision]
    norm_num
  have h := potion_collection_correct potionWitnessState witnessPotion 0
    (newPlayerP 1 100 101) hfind (by rfl) (by rfl)
  exact ⟨h.1, h.2.1, h.2.2.2.2.2.2.1⟩

/-! ## Claim C3: experience-orb collection and leveling -/

/-- Claim C3: an orb overlapped by at least one player is consumed by the
first overlapping player in iteration order; the orb is dropped and its
id released; the amount is added to that player's experience and then
the leveling rule runs — `while experience ≥ level·10`: level+1,
damage+1, maxHealth+10, health ← maxHealth, experience ← 0 (the loop
body runs at most once since the reset falsifies the guard, which the
final `experience < level·10` conjunct certifies) — and on a level
transition the `levelUp` notification is posted to the collector before
the `experienceCollected` notification. -/
theorem experience_collection_correct (st : GameState A) (e : Experience) (j : ℕ)
    (p : Player A)
    (hj : st.players.findIdx? (fun q => e.toEntity.checkCollision q.toEntity) = some j)
    (hp : st.players.getD j dfltPlayer = p)
    (hc : p.hasClient = true) (hl : 1 ≤ p.level) :
    (processExpOrb st e).2 = none ∧
    (processExpOrb st e).1.1.usedIDs ("experience") e.id = false ∧
    e.toEntity.checkCollision p.toEntity = true ∧
    (∀ k, k < j →
      e.toEntity.checkCollision ((st.players.getD k dfltPlayer).toEntity) = false) ∧
    (processExpOrb st e).1.1.players =
      modifyAt st.players j (fun _ => (onCollectExp e p).1) ∧
    (processExpOrb st e).1.2 = (onCollectExp e p).2 ∧
    (if p.experience + e.amount ≥ p.level * 10 then
      (onCollectExp e p).1.level = p.level + 1 ∧
      (onCollectExp e p).1.damage = p.damage + 1 ∧
      (onCollectExp e p).1.maxHealth = p.maxHealth + 10 ∧
      (onCollectExp e p).1.health = (onCollectExp e p).1.maxHealth ∧
      (onCollectExp e p).1.experience = 0 ∧
      (onCollectExp e p).2 =
        [.levelUp p.id (p.level + 1),
         .experienceCollected p.id e.id e.amount 0]
    else
      (onCollectExp e p).1.experience = p.experience + e.amount ∧
      (onCollectExp e p).1.level = p.level ∧
      (onCollectExp e p).1.damage = p.damage ∧
      (onCollectExp e p).1.maxHealth = p.maxHealth ∧
      (onCollectExp e p).1.health = p.health ∧
      (onCollectExp e p).2 =
        [.experienceCollected p.id e.id e.amount (p.experience + e.amount)]) ∧
    (onCollectExp e p).1.experience < (onCollectExp e p).1.level * 10 := by
  obtain ⟨hlt, hov, hmin⟩ := List.findIdx?_eq_some_iff_getElem.mp hj
  have hgetD : st.players.getD j dfltPlayer = st.players[j] := by
    simp [List.getD_eq_getElem?_getD, List.getElem?_eq_getElem hlt]
  rw [hgetD] at hp
  refine ⟨?_, ?_, ?_, ?_, ?_, ?_, ?_, ?_⟩
  · simp only [processExpOrb, hj]
  · simp only [processExpOrb, hj, releaseID]
    simp
  · rw [hp] at hov
    exact hov
  · intro k hk
    have := hmin k hk
    have hklt : k < st.players.length := Nat.lt_trans hk hlt
    have hgk : st.players.getD k dfltPlayer = st.players[k] := by
      simp [List.getD_eq_getElem?_getD, List.getElem?_eq_getElem hklt]
    rw [hgk]
    simpa using this
  · simp only [processExpOrb, hj, hgetD, hp]
  · simp only [processExpOrb, hj, hgetD, hp]
  · simp only [onCollectExp, hc]
    simp only [Bool.true_eq_false, if_false]
    split_ifs <;> simp_all
  · simp only [onCollectExp, hc]
    simp only [Bool.true_eq_false, if_false]
    split_ifs with hthr
    all_goals simp_all
    all_goals omega

/-- Concrete instance of `experience_collection_correct`: a level-1 player
with 5 experience standing on an orb worth 5 consumes it and the orb id
is released; the leveling guard is falsified afterwards. -/
theorem experience_collection_correct_witness :
    (processExpOrb expWitnessState witnessOrb).2 = none ∧
    (processExpOrb expWitnessState witnessOrb).1.1.usedIDs ("experience") 60 = false ∧
    (onCollectExp witnessOrb expWitnessPlayer).1.experience <
      (onCollectExp witnessOrb expWitnessPlayer).1.level * 10 := by
  have hfind : expWitnessState.players.findIdx?
      (fun q => witnessOrb.toEntity.checkCollision q.toEntity) = some 0 := by
    simp [expWitnessState, witnessOrb, expWitnessPlayer, newPlayerP, Entity.checkCollision]
    norm_num
  have h := experience_collection_correct expWitnessState witnessOrb 0
    expWitnessPlayer hfind (by rfl) (by rfl)
    (by norm_num [expWitnessPlayer, newPlayerP])
  exact ⟨h.1, h.2.1, h.2.2.2.2.2.2.2⟩

/-! ## Claim C8: monster population target and spawn parameters -/

lemma spawnLoop_len (piA : A) (rolls : ℕ → SpawnRoll) (k : ℕ) (g : GameState A) :
    (spawnLoop piA rolls k g).monsters.length =
      max g.monsters.length
        (min (g.players.length * playerMasterRatioK + baseMonsterAmount)
          maxMonsterAmount) ∧
    (spawnLoop piA rolls k g).players = g.players ∧
    ∃ rest, (spawnLoop piA rolls k g).monsters = g.monsters ++ rest ∧
      ∀ m ∈ rest, ∃ j, m = spawnMonsterP piA (rolls j) := by
  induction k, g using spawnLoop.induct piA rolls with
  | case1 k g hcond ih =>
    obtain ⟨hc1, hc2⟩ := hcond
    rw [spawnLoop, if_pos ⟨hc1, hc2⟩]
    obtain ⟨ih1, ih2, rest, ihr, ihm⟩ := ih
    have hps : (spawnMonsterG piA (rolls k) g).players = g.players := rfl
    have hms : (spawnMonsterG piA (rolls k) g).monsters =
        g.monsters ++ [spawnMonsterP piA (rolls k)] := rfl
    refine ⟨?_, ?_, ?_⟩
    · rw [ih1, hps, hms]
      simp only [List.length_append, List.length_cons, List.length_nil]
      omega
    · rw [ih2, hps]
    · refine ⟨spawnMonsterP piA (rolls k) :: rest, ?_, ?_⟩
      · rw [ihr, hms, List.append_assoc]
        rfl
      · intro m hm
        rcases List.mem_cons.mp hm with h | h
        · exact ⟨k, h⟩
        · exact ihm m h
  | case2 k g hcond =>
    rw [spawnLoop, if_neg hcond]
    refine ⟨?_, rfl, [], by simp, by simp⟩
    rw [Classical.not_and_iff_or_not_not] at hcond
    omega

lemma spawnMonsterP_bounds (piA : A) (roll : SpawnRoll)
    (h0x : 0 ≤ roll.rx) (h1x : roll.rx < 1) (h0y : 0 ≤ roll.ry) (h1y : roll.ry < 1) :
    50 ≤ (spawnMonsterP piA roll).x ∧ (spawnMonsterP piA roll).x ≤ 1150 ∧
    50 ≤ (spawnMonsterP piA roll).y ∧ (spawnMonsterP piA roll).y ≤ 750 := by
  have hx : roll.rx * 1100 < 1 * 1100 :=
    mul_lt_mul_of_pos_right h1x (by norm_num)
  have hx0 : 0 ≤ roll.rx * 1100 := by positivity
  have hy : roll.ry * 700 < 1 * 700 :=
    mul_lt_mul_of_pos_right h1y (by norm_num)
  have hy0 : 0 ≤ roll.ry * 700 := by positivity
  simp only [spawnMonsterP, gameMinX, gameMinY, gameMaxX, gameMaxY]
  norm_num
  refine ⟨by linarith, by linarith, by linarith, by linarith⟩

/-- Claim C8: the spawn loop at the head of `MonsterSystem.Update` raises
the monster count exactly to `min(2·|players| + 10, 60)` when it is below
that target (leaving it alone otherwise), touching no existing monster;
every newly spawned monster has position in `[50,1150] × [50,750]`
(uniform given uniform `rand.Float64` draws), size 20×20, health and max
health 60, speed 30, damage 20, drop rate 0.75, and direction
`rand·2π ∈ [0, 2π)`. -/
theorem monster_population_and_spawn :
    (∀ (piA : A) (rolls : ℕ → SpawnRoll) (k : ℕ) (g : GameState A),
      (spawnLoop piA rolls k g).monsters.length =
        max g.monsters.length
          (min (g.players.length * playerMasterRatioK + baseMonsterAmount)
            maxMonsterAmount) ∧
      (spawnLoop piA rolls k g).players = g.players ∧
      ∃ rest, (spawnLoop piA rolls k g).monsters = g.monsters ++ rest ∧
        ∀ m ∈ rest, ∃ j, m = spawnMonsterP piA (rolls j)) ∧
    (∀ (piA : A) (roll : SpawnRoll),
      0 ≤ roll.rx → roll.rx < 1 → 0 ≤ roll.ry → roll.ry < 1 →
      (50 ≤ (spawnMonsterP piA roll).x ∧ (spawnMonsterP piA roll).x ≤ 1150 ∧
       50 ≤ (spawnMonsterP piA roll).y ∧ (spawnMonsterP piA roll).y ≤ 750 ∧
       (spawnMonsterP piA roll).width = 20 ∧ (spawnMonsterP piA roll).height = 20 ∧
       (spawnMonsterP piA roll).health = 60 ∧ (spawnMonsterP piA roll).maxHealth = 60 ∧
       (spawnMonsterP piA roll).speed = 30 ∧ (spawnMonsterP piA roll).damage = 20 ∧
       (spawnMonsterP piA roll).dropRate = 3/4 ∧
       (spawnMonsterP piA roll).direction = (roll.rdir : ℚ) * (2 * piA))) ∧
    (∀ (roll : SpawnRoll), 0 ≤ roll.rdir → roll.rdir < 1 →
      0 ≤ (spawnMonsterP Real.pi roll).direction ∧
      (spawnMonsterP Real.pi roll).direction < 2 * Real.pi) := by
  refine ⟨spawnLoop_len, ?_, ?_⟩
  · intro piA roll h0x h1x h0y h1y
    obtain ⟨b1, b2, b3, b4⟩ := spawnMonsterP_bounds piA roll h0x h1x h0y h1y
    exact ⟨b1, b2, b3, b4, rfl, rfl, rfl, rfl, rfl, rfl, rfl, rfl⟩
  · intro roll h0 h1
    have hdir : (spawnMonsterP Real.pi roll).direction = (roll.rdir : ℝ) * (2 * Real.pi) :=
      rfl
    have h2pi : (0 : ℝ) < 2 * Real.pi := by positivity
    constructor
    · rw [hdir]
      have : (0 : ℝ) ≤ (roll.rdir : ℝ) := by exact_mod_cast h0
      positivity
    · rw [hdir]
      have hcast : (roll.rdir : ℝ) < 1 := by exact_mod_cast h1
      nlinarith [Real.pi_pos]

/-- Concrete instance of `monster_population_and_spawn`: with one player
and no monsters the loop spawns exactly `min(2·1+10, 60) = 12` monsters,
and a spawn at mid-range rolls lands at (600, 400) with direction `π`
inside `[0, 2π)`. -/
theorem monster_population_and_spawn_witness :
    (spawnLoop (355/113 : ℚ) (fun _ => spawnWitnessRoll) 0 spawnWitnessState).monsters.length =
      12 ∧
    50 ≤ (spawnMonsterP (355/113 : ℚ) spawnWitnessRoll).x ∧
    0 ≤ (spawnMonsterP Real.pi spawnWitnessRoll).direction ∧
    (spawnMonsterP Real.pi spawnWitnessRoll).direction < 2 * Real.pi := by
  have h1 := (@monster_population_and_spawn ℚ _).1 (355/113)
    (fun _ => spawnWitnessRoll) 0 spawnWitnessState
  have h2 := (@monster_population_and_spawn ℚ _).2.1 (355/113) spawnWitnessRoll
    (by norm_num [spawnWitnessRoll]) (by norm_num [spawnWitnessRoll])
    (by norm_num [spawnWitnessRoll]) (by norm_num [spawnWitnessRoll])
  have h3 := (@monster_population_and_spawn ℚ _).2.2 spawnWitnessRoll
    (by norm_num [spawnWitnessRoll]) (by norm_num [spawnWitnessRoll])
  refine ⟨?_, h2.1, h3.1, h3.2⟩
  rw [h1.1]
  rfl

/-! ## Claim C7: locking and backpressure -/

lemma tickTrace_posts (piA : A) (dt : ℚ) (o : TickOracle) (g : GameState A)
    (h : (tick piA dt o g).2 ≠ []) :
    postedWhileLocked (tickTrace piA dt o g) = true := by
  unfold postedWhileLocked tickTrace
  rcases hl : (tick piA dt o g).2 with _ | ⟨n, rest⟩
  · exact absurd hl h
  · simp [List.dropWhile, List.takeWhile, isPost]

lemma removeDeadPlayers_single_dead (rolls : ℕ → DeathRoll) (g : GameState A)
    (P1 : Player A) (hplayers : g.players = [P1])
    (hd : isDeadH P1.toHealthComponent = true)
    (hc : P1.hasClient = true) (he : ¬ P1.experience > 0) :
    (removeDeadPlayers rolls g).2 = [Notif.playerDeath P1.id] := by
  have hf : List.filter (fun p => isDeadH p.toHealthComponent) [P1] = [P1] := by
    simp [List.filter_cons, hd]
  simp only [removeDeadPlayers, hplayers, hf]
  simp [removeDeadStep, List.range_succ, hc, he]

/-- Claim C7 counterexample: a tick on a state holding one dead,
client-attached player posts a `playerDeath` notification into that
client's egress queue strictly between taking and releasing the world
mutex — a lock IS held across posting notifications (the unicast sends
happen inside the subsystems, which `Game.run` calls under `g.mu`). -/
theorem notification_posted_under_lock :
    postedWhileLocked (tickTrace (355/113 : ℚ) (1/60) lockCexOracle lockCexState) = true := by
  apply tickTrace_posts
  have hstats := playerUpdateOne_stats (1/60 : ℚ) trivTrig lockCexPlayer
  have hplayers : lockCexG1.players =
      [playerUpdateOne (1/60 : ℚ) trivTrig lockCexPlayer] := by
    simp [lockCexG1, lockCexState, lockCexOracle]
  have hh : (playerUpdateOne (1/60 : ℚ) trivTrig lockCexPlayer).toHealthComponent.health =
      lockCexPlayer.health := hstats.2.2.2.2.1
  have hd : isDeadH (playerUpdateOne (1/60 : ℚ) trivTrig
      lockCexPlayer).toHealthComponent = true := by
    unfold isDeadH
    rw [hh]
    rfl
  have hc : (playerUpdateOne (1/60 : ℚ) trivTrig lockCexPlayer).hasClient = true := by
    rw [hstats.2.2.2.2.2.2]
    rfl
  have hexp : (playerUpdateOne (1/60 : ℚ) trivTrig lockCexPlayer).experience =
      (0 : ℤ) := by
    rw [hstats.2.2.1]
    rfl
  have hmain := removeDeadPlayers_single_dead lockCexOracle.pDeathRolls lockCexG1
    (playerUpdateOne (1/60 : ℚ) trivTrig lockCexPlayer)
    hplayers hd hc (by rw [hexp]; norm_num)
  have htick : (tick (355/113 : ℚ) (1/60) lockCexOracle lockCexState).2 =
      [Notif.playerDeath (playerUpdateOne (1/60 : ℚ) trivTrig lockCexPlayer).id] ++
      (csAll lockCexOracle.now (monsterSystemUpdate (355/113 : ℚ) (1/60)
        lockCexOracle.spawnRolls lockCexOracle.moveRolls lockCexOracle.mDeathRolls
        (playerSystemUpdate (1/60) lockCexOracle.trs lockCexOracle.pDeathRolls
          lockCexState).1)).2 := by
    show (playerSystemUpdate (1/60 : ℚ) lockCexOracle.trs lockCexOracle.pDeathRolls
        lockCexState).2 ++ _ = _
    rw [show (playerSystemUpdate (1/60 : ℚ) lockCexOracle.trs lockCexOracle.pDeathRolls
        lockCexState).2 = [Notif.playerDeath (playerUpdateOne (1/60 : ℚ) trivTrig
          lockCexPlayer).id] from hmain]
  rw [htick]
  simp

/-- Claim C7 (amended): the Hub's broadcast arm never blocks — exactly
the connections whose egress queue (capacity 256) is below capacity
survive, in registry order, each with the message appended, and a
connection with a full queue is dropped from the registry instead of
being waited on; unicast notifications, by contrast, are posted while
the world mutex is held (see the counterexample). -/
theorem hub_broadcast_drops_full :
    ∀ {M : Type} (msg : M) (conns : List (HubConn M)),
      hubBroadcast msg conns =
        (conns.filter (fun c => c.queue.length < egressCapacity)).map
          (fun c => { c with queue := c.queue ++ [msg] }) ∧
      egressCapacity = 256 := by
  intro M msg conns
  refine ⟨?_, rfl⟩
  induction conns with
  | nil => rfl
  | cons c cs ih =>
    by_cases h : c.queue.length < egressCapacity
    · have h1 : hubBroadcast msg (c :: cs) =
          ({ c with queue := c.queue ++ [msg] } : HubConn M) :: hubBroadcast msg cs := by
        simp [hubBroadcast, h]
      rw [h1, ih, List.filter_cons]
      simp [h]
    · have h1 : hubBroadcast msg (c :: cs) = hubBroadcast msg cs := by
        simp [hubBroadcast, h]
      rw [h1, ih, List.filter_cons]
      simp [h]

/-! ## Claim C10: deaths are cleaned up at the start of the next tick -/

/-- Claim C10: the collision phase removes no player or monster — the id
sequences of both lists are unchanged, so an entity that dies there
still appears in that tick's snapshot, with health clamped at exactly 0;
cleanup happens in the subsystems that run at the start of the next
tick, before its collision phase: after `PlayerSystem.Update` no player
with the dead player's id remains, after `MonsterSystem.Update` no dead
monster remains, and one tick is exactly player system → monster system
→ collision system with the snapshot taken from the collision output. -/
theorem death_cleanup_next_tick :
    (∀ (now : ℤ) (g : GameState A),
      (∀ p ∈ g.players, 0 ≤ p.health ∧ 0 ≤ p.maxHealth) →
      (∀ m ∈ g.monsters, 0 ≤ m.health) →
      (∀ pot ∈ g.healingPotions, 0 ≤ pot.amount) →
      ((csAll now g).1.players.map (fun p => p.id) =
          g.players.map (fun p => p.id) ∧
       (csAll now g).1.monsters.map (fun m => m.id) =
          g.monsters.map (fun m => m.id) ∧
       (∀ p ∈ (csAll now g).1.players, 0 ≤ p.health) ∧
       (∀ m ∈ (csAll now g).1.monsters, 0 ≤ m.health))) ∧
    (∀ (piA : A) (dt : ℚ) (sr : ℕ → SpawnRoll) (mr : ℕ → MoveRoll)
       (dr : ℕ → MonsterDeathRoll) (g : GameState A),
      ∀ m ∈ (monsterSystemUpdate piA dt sr mr dr g).monsters,
        isDeadH m.toHealthComponent = false) ∧
    (∀ (dt : ℚ) (trs : ℕ → PlayerTrig) (rolls : ℕ → DeathRoll) (g : GameState A)
       (p : Player A),
      (g.players.map (fun q => q.id)).Nodup → p ∈ g.players →
      isDeadH p.toHealthComponent = true →
      ∀ q ∈ (playerSystemUpdate dt trs rolls g).1.players, q.id ≠ p.id) ∧
    (∀ (piA : A) (dt : ℚ) (o : TickOracle) (g : GameState A),
      tick piA dt o g =
        ((csAll o.now (monsterSystemUpdate piA dt o.spawnRolls o.moveRolls
            o.mDeathRolls (playerSystemUpdate dt o.trs o.pDeathRolls g).1)).1,
         (playerSystemUpdate dt o.trs o.pDeathRolls g).2 ++
         (csAll o.now (monsterSystemUpdate piA dt o.spawnRolls o.moveRolls
            o.mDeathRolls (playerSystemUpdate dt o.trs o.pDeathRolls g).1)).2)) := by
  refine ⟨?_, ?_, ?_, fun piA dt o g => rfl⟩
  · intro now g h1 h2 h3
    obtain ⟨k1, k2, k3, k4, -⟩ := csAll_inv (g.players.map (fun p => p.id))
      (g.monsters.map (fun m => m.id)) now g ⟨rfl, rfl, h1, h2, h3⟩
    exact ⟨k1, k2, fun p hp => (k3 p hp).1, k4⟩
  · intro piA dt sr mr dr g m hm
    exact removeDeadMonsters_no_dead _ _ m hm
  · intro dt trs rolls g p hnd hp hdead q hq
    obtain ⟨i, hi, hpi⟩ := List.mem_iff_getElem.mp hp
    have hids : ((g.players.mapIdx (fun n a => playerUpdateOne dt (trs n) a)).map
        (fun x => x.id)) = g.players.map (fun x => x.id) :=
      map_mapIdx_eq _ _ _ (fun n a => (playerUpdateOne_stats dt (trs n) a).2.2.2.2.2.1)
    have hi1 : i < (g.players.mapIdx (fun n a => playerUpdateOne dt (trs n) a)).length := by
      simpa using hi
    have hp1 : (g.players.mapIdx (fun n a => playerUpdateOne dt (trs n) a))[i] =
        playerUpdateOne dt (trs i) p := by
      rw [List.getElem_mapIdx]
      rw [hpi]
    have hh : (playerUpdateOne dt (trs i) p).toHealthComponent.health =
        p.toHealthComponent.health := (playerUpdateOne_stats dt (trs i) p).2.2.2.2.1
    have hdead1 : isDeadH (playerUpdateOne dt (trs i) p).toHealthComponent = true := by
      unfold isDeadH at hdead ⊢
      rw [hh]
      exact hdead
    have hmem1 : playerUpdateOne dt (trs i) p ∈
        (g.players.mapIdx (fun n a => playerUpdateOne dt (trs n) a)).filter
          (fun x => isDeadH x.toHealthComponent) := by
      refine List.mem_filter.mpr ⟨?_, hdead1⟩
      rw [← hp1]
      exact List.getElem_mem hi1
    obtain ⟨n0, hn0, hdn0⟩ := List.mem_iff_getElem.mp hmem1
    have hgetD : ((g.players.mapIdx (fun n a => playerUpdateOne dt (trs n) a)).filter
        (fun x => isDeadH x.toHealthComponent)).getD n0 dfltPlayer =
        playerUpdateOne dt (trs i) p := by
      rw [List.getD_eq_getElem?_getD, List.getElem?_eq_getElem hn0, hdn0]
      rfl
    have hid0 : (((g.players.mapIdx (fun n a => playerUpdateOne dt (trs n) a)).filter
        (fun x => isDeadH x.toHealthComponent)).getD n0 dfltPlayer).id = p.id := by
      rw [hgetD]
      exact (playerUpdateOne_stats dt (trs i) p).2.2.2.2.2.1
    exact removal_fold_no_id _ rolls _ _ p.id n0 (List.mem_range.mpr hn0) hid0
      (by show (((g.players.mapIdx (fun n a => playerUpdateOne dt (trs n) a)).map
            (fun x => x.id)).Nodup)
          rw [hids]
          exact hnd) q hq

/-- Concrete instance of `death_cleanup_next_tick`: the collision phase
keeps the dead player and the monster in the lists (same ids, in
order). -/
theorem death_cleanup_next_tick_witness :
    (csAll 0 csWitnessState).1.players.map (fun p => p.id) =
      csWitnessState.players.map (fun p => p.id) ∧
    (csAll 0 csWitnessState).1.monsters.map (fun m => m.id) =
      csWitnessState.monsters.map (fun m => m.id) := by
  have h := (@death_cleanup_next_tick ℚ _).1 0 csWitnessState
    (by intro p hp
        simp only [csWitnessState, List.mem_singleton] at hp
        subst hp
        norm_num [newPlayerP])
    (by intro m hm
        simp only [csWitnessState, List.mem_singleton] at hm
        subst hm
        norm_num [bounceMonster])
    (by intro pot hpot
        simp only [csWitnessState, List.mem_singleton] at hpot
        subst hpot
        norm_num [witnessPotion])
  exact ⟨h.1, h.2.1⟩

end IoGame
